import Mathlib

/-!
Verification development for the task-orchestration core of this repository
(circuit breaker, retry engine, DAG step scheduler, task state machine,
orchestrator validate/replan and interruption/resume protocol).

Each definition is a shallow embedding of the corresponding Python function:
  CircuitBreaker / isOpen / recordSuccess / recordFailure  <- app/retry_engine.py
  selectStrategy / executeWithRetry                        <- app/retry_engine.py
  execStepOut / resolveParameters / executePlan            <- app/executor.py
  STATE_TRANSITIONS / transitionState                      <- app/models.py, app/orchestrator.py
  handleInterruption / validateAndComplete /
  resumeAfterInterruption                                  <- app/orchestrator.py
Wall-clock time is threaded explicitly as a natural number of seconds; sleeps
are recorded in a trace instead of being performed; the random backoff jitter
is abstracted into an oracle argument (its value is never relevant to the
properties proved here).
-/

namespace AgentCore

/-- Association-list lookup, modelling Python `dict` access keyed by strings. -/
def alookup {α : Type} : List (String × α) → String → Option α
  | [], _ => none
  | (k, v) :: rest, key => if k = key then some v else alookup rest key

/-- Python `dict.get(key, default)`. -/
def alookupD {α : Type} (m : List (String × α)) (key : String) (dflt : α) : α :=
  (alookup m key).getD dflt

/-- Python `dict[key] = value`: replace the first binding of the key, or append. -/
def aset {α : Type} : List (String × α) → String → α → List (String × α)
  | [], key, v => [(key, v)]
  | (k, w) :: rest, key, v =>
    if k = key then (k, v) :: rest else (k, w) :: aset rest key v

/-- Python `dict.update(other)`: write every binding of `other` into `m`. -/
def aupdate {α : Type} (m : List (String × α)) (other : List (String × α)) :
    List (String × α) :=
  other.foldl (fun acc kv => aset acc kv.1 kv.2) m

/-- Task lifecycle states (`TaskStatus` in app/models.py). -/
inductive TaskStatus where
  | pending | analyzing | planning | executing | waiting
  | retrying | interrupted | validating | completed | failed
  deriving DecidableEq, Repr

/-- Step execution states (`StepStatus` in app/models.py). -/
inductive StepStatus where
  | pending | inProgress | completed | failed | skipped
  deriving DecidableEq, Repr

/-- The `.value` string of a task status. -/
def statusValue : TaskStatus → String
  | .pending => "pending"
  | .analyzing => "analyzing"
  | .planning => "planning"
  | .executing => "executing"
  | .waiting => "waiting"
  | .retrying => "retrying"
  | .interrupted => "interrupted"
  | .validating => "validating"
  | .completed => "completed"
  | .failed => "failed"

/-- Circuit-breaker per-service state strings 'closed' / 'open' / 'half-open'. -/
inductive CircState where
  | closed | open_ | halfOpen
  deriving DecidableEq, Repr

/-- Context values: the shared `context` dict holds strings, numbers, booleans
and nested dicts in the parts of the program modelled here. -/
inductive CtxVal where
  | s (v : String)
  | n (v : Nat)
  | b (v : Bool)
  | d (m : List (String × CtxVal))

/-- The shared context map threaded through the plan. -/
abbrev Ctx := List (String × CtxVal)

/-- `context.get(key, 0)` for the integer replan counter. -/
def ctxGetNat (ctx : Ctx) (key : String) (dflt : Nat) : Nat :=
  match alookup ctx key with
  | some (.n v) => v
  | _ => dflt

/-- `context.get(key, "")` for a string entry. -/
def ctxGetStr (ctx : Ctx) (key : String) (dflt : String) : String :=
  match alookup ctx key with
  | some (.s v) => v
  | _ => dflt

/-- `CircuitBreaker.__init__` state (app/retry_engine.py lines 26-31):
per-service failure counts, last failure times, and state strings; a service
absent from `state` has never tripped. -/
structure CircuitBreaker where
  failure_threshold : Nat := 5
  recovery_timeout : Nat := 300
  failures : List (String × Nat) := []
  last_failure_time : List (String × Nat) := []
  state : List (String × CircState) := []
  deriving DecidableEq, Repr

/-- `CircuitBreaker.is_open` (app/retry_engine.py lines 33-47).  Returns the
boolean answer and the (possibly updated) breaker: when the recovery timeout
has passed for an open circuit the state flips to half-open.  `now` is the
current wall-clock second. -/
def isOpen (cb : CircuitBreaker) (now : Nat) (service : String) :
    Bool × CircuitBreaker :=
  match alookup cb.state service with
  | none => (false, cb)
  | some st =>
    if st = .open_ then
      if now - alookupD cb.last_failure_time service 0 > cb.recovery_timeout then
        (false, { cb with state := aset cb.state service .halfOpen })
      else (true, cb)
    else (false, cb)

/-- `CircuitBreaker.record_success` (app/retry_engine.py lines 49-54):
decrement the failure count (floored at 0, which is exactly truncated
natural subtraction); a half-open circuit closes. -/
def recordSuccess (cb : CircuitBreaker) (service : String) : CircuitBreaker :=
  if alookup cb.state service = some CircState.halfOpen then
    { cb with
      failures := aset cb.failures service (alookupD cb.failures service 0 - 1),
      state := aset cb.state service .closed }
  else
    { cb with
      failures := aset cb.failures service (alookupD cb.failures service 0 - 1) }

/-- `CircuitBreaker.record_failure` (app/retry_engine.py lines 56-63):
increment the failure count, stamp the failure time, and open the circuit
once the count reaches the threshold. -/
def recordFailure (cb : CircuitBreaker) (service : String) (now : Nat) :
    CircuitBreaker :=
  if alookupD cb.failures service 0 + 1 ≥ cb.failure_threshold then
    { cb with
      failures := aset cb.failures service (alookupD cb.failures service 0 + 1),
      last_failure_time := aset cb.last_failure_time service now,
      state := aset cb.state service .open_ }
  else
    { cb with
      failures := aset cb.failures service (alookupD cb.failures service 0 + 1),
      last_failure_time := aset cb.last_failure_time service now }

/-- Substring test on character lists (Python `needle in hay`). -/
def charsContain (needle : List Char) : List Char → Bool
  | [] => needle.isEmpty
  | c :: rest => needle.isPrefixOf (c :: rest) || charsContain needle rest

/-- Python `needle in hay` on strings. -/
def strContains (hay needle : String) : Bool :=
  charsContain needle.toList hay.toList

/-- Python `any(x in error_str for x in needles)`. -/
def containsAny (hay : String) (needles : List String) : Bool :=
  needles.any (fun x => strContains hay x)

/-- ASCII lowercasing of one character (Python `str.lower` restricted to the
ASCII range, which covers every failure message and classifier needle in the
source). -/
def lowerChar (c : Char) : Char :=
  if 65 ≤ c.toNat ∧ c.toNat ≤ 90 then Char.ofNat (c.toNat + 32) else c

/-- Python `s.lower()` (ASCII). -/
def strToLower (s : String) : String :=
  String.mk (s.toList.map lowerChar)

/-- Python `s.startswith(p)`. -/
def strStartsWith (s p : String) : Bool :=
  p.toList.isPrefixOf s.toList

/-- Python `s.endswith(p)`. -/
def strEndsWith (s p : String) : Bool :=
  p.toList.reverse.isPrefixOf s.toList.reverse

/-- Python `s[n:m]` on code points: drop `n` from the front and `m` from the
back (used for `value[2:-2]`). -/
def strSlice (s : String) (n m : Nat) : String :=
  String.mk ((s.toList.drop n).take (s.toList.length - n - m))

/-- One schedulable unit of work (`ExecutionStep` in app/models.py).  The
fields not consulted by the control flow modelled here (description,
parameters, result, error, timestamps) are omitted; parameter resolution is
modelled separately on the parameter map itself. -/
structure ExecutionStep where
  id : String
  action_type : String
  dependencies : List String := []
  status : StepStatus := .pending
  retry_count : Nat := 0
  max_retries : Nat := 3
  deriving DecidableEq, Repr

/-- Outcome of invoking a tool handler (or of `ExecutorEngine.execute_step`):
a successful result carrying its `context_updates`, an ordinary exception
with its message, or a raised `HumanInterruptionRequired(reason, data)`. -/
inductive ToolOut where
  | ok (updates : Ctx)
  | err (msg : String)
  | interrupt (reason : String) (data : Ctx)

/-- `ExecutorEngine.execute_step` (app/executor.py lines 21-76) as a map on
the handler outcome: success passes through, `HumanInterruptionRequired` is
re-raised untouched (lines 69-71), and any other exception is wrapped into
`ExecutionError("Step {id} failed: {e}")` (lines 73-76). -/
def execStepOut (step : ExecutionStep) : ToolOut → ToolOut
  | .err m => .err ("Step " ++ step.id ++ " failed: " ++ m)
  | o => o

/-- Retry strategies (`RetryStrategy` in app/retry_engine.py). -/
inductive RetryStrategy where
  | immediate | exponential | linear | circuitBreak | alternative | human
  deriving DecidableEq, Repr

/-- `RetryEngine._select_strategy` (app/retry_engine.py lines 153-184):
case-insensitive substring classification of the failure message, first
match wins, in the source's order. -/
def selectStrategy (errMsg : String) (attempt : Nat) : RetryStrategy :=
  let e := strToLower errMsg
  if containsAny e ["timeout", "connection", "network", "503", "502", "504"] then
    .exponential
  else if containsAny e ["rate limit", "429", "too many requests"] then
    .exponential
  else if containsAny e ["auth", "unauthorized", "401", "403", "forbidden"] then
    (if attempt < 2 then .immediate else .human)
  else if containsAny e ["not found", "404", "unavailable", "no longer available"] then
    .alternative
  else if containsAny e ["insufficient funds", "invalid", "rejected", "declined"] then
    .human
  else if containsAny e ["temporarily", "unavailable", "maintenance", "busy"] then
    .exponential
  else
    .exponential

/-- Result of `RetryEngine.execute_with_retry`: the returned dict is one of
success / needs-replan / exhausted, and a raised `HumanInterruptionRequired`
is modelled as the `interrupted` variant propagating to the caller. -/
inductive RetryOutcome where
  | success (attempts : Nat)
  | needsReplan (error : String) (attempts : Nat)
  | exhausted (error : String) (attempts : Nat)
  | interrupted (reason : String) (data : Ctx)

/-- Instrumented state threaded through the retry loop: the breaker, the
clock, how many times the step executor was invoked, which retry sleeps were
performed (strategy and attempt index), and how many circuit-open waits
happened. -/
structure RetryState where
  cb : CircuitBreaker
  now : Nat
  invocations : Nat := 0
  sleeps : List (RetryStrategy × Nat) := []
  openWaits : Nat := 0

/-- Loop body of `RetryEngine.execute_with_retry` (app/retry_engine.py lines
75-151).  `tool attempt` is the behaviour of `executor(step, context)` on the
given attempt; `delay strat attempt` abstracts `_calculate_delay` (whose
jittered value never matters for the properties below); `remaining` is the
number of loop iterations left (`max_retries + 1` at the start). -/
def executeWithRetryAux (step : ExecutionStep) (tool : Nat → ToolOut) (ctx : Ctx)
    (delay : RetryStrategy → Nat → Nat) :
    RetryState → Nat → String → Nat → RetryOutcome × RetryState
  | st, _, lastError, 0 => (.exhausted lastError (step.max_retries + 1), st)
  | st, attempt, _, r + 1 =>
    let p := isOpen st.cb st.now step.action_type
    let st1 := if p.1 then
        { st with cb := p.2, now := st.now + p.2.recovery_timeout,
                  openWaits := st.openWaits + 1 }
      else { st with cb := p.2 }
    match execStepOut step (tool attempt) with
    | .ok _ =>
      (.success (attempt + 1),
       { st1 with cb := recordSuccess st1.cb step.action_type,
                  invocations := st1.invocations + 1 })
    | .interrupt reason data =>
      (.interrupted reason data, { st1 with invocations := st1.invocations + 1 })
    | .err m =>
      let st2 := { st1 with cb := recordFailure st1.cb step.action_type st1.now,
                            invocations := st1.invocations + 1 }
      let strat := selectStrategy m attempt
      if strat = .human then
        (.interrupted ("Step failed after " ++ toString (attempt + 1) ++
            " attempts: " ++ m)
          [("step", .s step.id), ("error", .s m), ("context", .d ctx)], st2)
      else if strat = .alternative then
        (.needsReplan m (attempt + 1), st2)
      else if attempt < step.max_retries then
        executeWithRetryAux step tool ctx delay
          { st2 with now := st2.now + delay strat attempt,
                     sleeps := st2.sleeps ++ [(strat, attempt)] }
          (attempt + 1) m r
      else
        (.exhausted m (step.max_retries + 1), st2)

/-- `RetryEngine.execute_with_retry` with a fresh instrumentation trace. -/
def executeWithRetry (step : ExecutionStep) (tool : Nat → ToolOut) (ctx : Ctx)
    (delay : RetryStrategy → Nat → Nat) (cb : CircuitBreaker) (now : Nat) :
    RetryOutcome × RetryState :=
  executeWithRetryAux step tool ctx delay
    { cb := cb, now := now } 0 "None" (step.max_retries + 1)

/-- The list of step ids of a plan. -/
def planIds (plan : List ExecutionStep) : List String :=
  plan.map (fun s => s.id)

/-- The ready test of `ExecutorEngine.execute_plan` (app/executor.py lines
140-145): not yet in `completed_steps`, not already `COMPLETED`, and every
dependency id in `completed_steps`. -/
def isReady (completed : List String) (s : ExecutionStep) : Bool :=
  decide (s.id ∉ completed) && decide (s.status ≠ StepStatus.completed) &&
    s.dependencies.all (fun d => decide (d ∈ completed))

/-- Result of `ExecutorEngine.execute_plan`.  `batchFailure` carries the
failed step's id, its plan index, the stringified error, and (as model
instrumentation) the ids of the wave the failure occurred in; `deadlock`
carries the `"{id} (depends on: {deps})"` pending report of lines 147-155.
`outOfFuel` is a model artifact for the fuelled loop, shown unreachable in
the situations the theorems below consider. -/
inductive PlanOutcome where
  | success (ctx : Ctx) (completedCount : Nat)
  | batchFailure (failedStep : String) (stepIndex : Nat) (error : String)
      (wave : List String)
  | deadlock (pendingInfo : List (String × List String))
  | outOfFuel

/-- Result processing of one gathered batch (app/executor.py lines 172-206),
in original plan order: an exception result aborts the batch immediately
(the step and the stringified exception are reported; for a raised
`HumanInterruptionRequired`, `str` of the exception is its reason); a success
merges the step's context updates and marks it completed. -/
def processBatch : List (ExecutionStep × ToolOut) → Ctx → List String →
    (Ctx × List String) ⊕ (ExecutionStep × String)
  | [], ctx, completed => .inl (ctx, completed)
  | (s, out) :: rest, ctx, completed =>
    match out with
    | .ok upd => processBatch rest (aupdate ctx upd) (completed ++ [s.id])
    | .err m => .inr (s, m)
    | .interrupt reason _ => .inr (s, reason)

/-- The scheduling loop of `ExecutorEngine.execute_plan` (app/executor.py
lines 118-214).  `tool id 0` is the single invocation the scheduler performs
for a ready step (there is no retry loop here; the attempt index is always
the number of earlier invocations of that step, which the theorems below
show is 0).  The returned string list is the trace of step ids in invocation
order.  Step-status mutation is not threaded: steps completed in this run
are tracked by `completed`, which dominates the ready test for them. -/
def executePlanLoop (tool : String → Nat → ToolOut) (plan : List ExecutionStep) :
    Ctx → List String → List String → Nat → PlanOutcome × List String
  | _, _, trace, 0 => (.outOfFuel, trace)
  | ctx, completed, trace, fuel + 1 =>
    if completed.length < plan.length then
      let ready := plan.filter (isReady completed)
      if ready.isEmpty then
        let pending := plan.filter (fun s => decide (s.id ∉ completed))
        if pending.isEmpty then (.success ctx completed.length, trace)
        else (.deadlock (pending.map fun s => (s.id, s.dependencies)), trace)
      else
        let results := ready.map (fun s => (s, execStepOut s (tool s.id 0)))
        let trace1 := trace ++ ready.map (fun s => s.id)
        match processBatch results ctx completed with
        | .inr (s, err) =>
          (.batchFailure s.id (plan.findIdx (fun p => p.id = s.id)) err
            (ready.map fun q => q.id), trace1)
        | .inl (ctx1, completed1) =>
          executePlanLoop tool plan ctx1 completed1 trace1 fuel
    else (.success ctx completed.length, trace)

/-- `ExecutorEngine.execute_plan` with enough fuel for any plan whose step
ids are distinct (each pass through the loop completes at least one step). -/
def executePlan (tool : String → Nat → ToolOut) (plan : List ExecutionStep)
    (ctx : Ctx) : PlanOutcome × List String :=
  executePlanLoop tool plan ctx [] [] (plan.length + 1)

/-- Written from the spec's words for comparison (claim C5): the deadlock
report the spec describes pairs each still-pending step id with only its
UNMET dependency ids (those not yet completed), rather than with the step's
full declared dependency list. -/
def specDeadlockInfo (plan : List ExecutionStep) (completed : List String) :
    List (String × List String) :=
  (plan.filter (fun s => decide (s.id ∉ completed))).map
    (fun s => (s.id, s.dependencies.filter (fun d => decide (d ∉ completed))))

/-- `STATE_TRANSITIONS` (app/models.py lines 121-131).  `COMPLETED` and
`FAILED` are absent from the source dict, so `dict.get(status, [])` yields
the empty list for them. -/
def STATE_TRANSITIONS : TaskStatus → List TaskStatus
  | .pending => [.analyzing]
  | .analyzing => [.planning, .interrupted, .failed]
  | .planning => [.executing, .interrupted, .failed]
  | .executing => [.waiting, .retrying, .validating, .interrupted, .failed]
  | .waiting => [.executing, .interrupted]
  | .retrying => [.executing, .failed]
  | .interrupted => [.executing, .failed]
  | .validating => [.completed, .executing, .failed]
  | .completed => []
  | .failed => []

/-- Full task state (`TaskState` in app/models.py), restricted to the fields
the orchestration control flow reads or writes.  Timestamps and the
append-only history are wall-clock data not consulted by any decision
modelled here. -/
structure TaskState where
  task_id : String
  user_id : String
  status : TaskStatus := .pending
  plan : List ExecutionStep := []
  current_step_index : Nat := 0
  context : Ctx := []
  interrupt_reason : Option String := none
  interrupt_data : Option Ctx := none

/-- `AgentOrchestrator._transition_state` (app/orchestrator.py lines
294-306): if the requested status is not in the allowed list the call raises
`StateTransitionError` before any mutation, so the task is returned
unchanged together with the error message; otherwise the status is updated.
-/
def transitionState (t : TaskState) (newState : TaskStatus) :
    TaskState × Option String :=
  if newState ∈ STATE_TRANSITIONS t.status then
    ({ t with status := newState }, none)
  else
    (t, some ("Invalid transition: " ++ statusValue t.status ++ " -> " ++
      statusValue newState))

/-- `AgentOrchestrator._handle_interruption` (app/orchestrator.py lines
262-278): attempt the transition to `INTERRUPTED`, forcing the status on a
`StateTransitionError`, then store the signal's reason and data. -/
def handleInterruption (t : TaskState) (reason : String) (data : Ctx) :
    TaskState :=
  let t1 := match transitionState t .interrupted with
    | (t', none) => t'
    | (t', some _) => { t' with status := .interrupted }
  { t1 with interrupt_reason := some reason, interrupt_data := some data }

/-- The validator verdict fields consulted by `_validate_and_complete`. -/
structure Validation where
  completed : Bool
  needs_more_work : Bool
  deriving DecidableEq, Repr

/-- How one call of `_validate_and_complete` ended. -/
inductive ValidateOutcome where
  | completedOk
  | forcedCompleted (note : String)
  | replanned
  | failedValidation
  | invalidTransition (msg : String)
  deriving DecidableEq, Repr

/-- `AgentOrchestrator._validate_and_complete` (app/orchestrator.py lines
213-260): transition to `VALIDATING`; on a complete verdict transition to
`COMPLETED`; otherwise read `context.get("_replan_count", 0)` and, at 3 or
more, force `COMPLETED` annotating the validation with
"Forced completion after max retries"; otherwise on `needs_more_work`
increment the counter, append the planner's new steps and set the status
directly back to `EXECUTING`; otherwise transition to `FAILED`.
`newSteps` stands for the external planner's output. -/
def validateAndComplete (t : TaskState) (v : Validation)
    (newSteps : List ExecutionStep) : TaskState × ValidateOutcome :=
  match transitionState t .validating with
  | (_, some e) => (t, .invalidTransition e)
  | (t1, none) =>
    if v.completed then
      ((transitionState t1 .completed).1, .completedOk)
    else
      let replanCount := ctxGetNat t1.context "_replan_count" 0
      if replanCount ≥ 3 then
        ((transitionState t1 .completed).1,
         .forcedCompleted "Forced completion after max retries")
      else if v.needs_more_work then
        ({ t1 with context := aset t1.context "_replan_count" (.n (replanCount + 1)),
                   plan := t1.plan ++ newSteps,
                   status := .executing }, .replanned)
      else
        ((transitionState t1 .failed).1, .failedValidation)

/-- The validate/replan cycle driver: each `replanned` outcome leaves the
task in `EXECUTING` and the orchestrator re-enters `_validate_and_complete`
once the appended steps finish (their execution does not touch the replan
counter).  Returns the final task, the final outcome, and the number of
validation cycles performed. -/
def validateReplanLoop (v : Validation) (newSteps : List ExecutionStep) :
    TaskState → Nat → TaskState × ValidateOutcome × Nat
  | t, 0 => (t, .invalidTransition "out of fuel", 0)
  | t, fuel + 1 =>
    match validateAndComplete t v newSteps with
    | (t', .replanned) =>
      let r := validateReplanLoop v newSteps t' fuel
      (r.1, r.2.1, r.2.2 + 1)
    | (t', out) => (t', out, 1)

/-- The user's response dict passed to `resume_after_interruption`; absent
`approved` is falsy in Python, so it is modelled as a plain boolean. -/
structure UserResponse where
  approved : Bool := false
  payment_method : Option String := none
  answer : String := ""

/-- The response dict as stored into the context. -/
def respToCtx (resp : UserResponse) : Ctx :=
  [("approved", .b resp.approved),
   ("payment_method", .s (resp.payment_method.getD "")),
   ("answer", .s resp.answer)]

/-- Mark the step at `current_step_index` completed and advance the index,
guarded by `current_step_index < len(plan)` as in the source. -/
def completeCurrentStep (t : TaskState) : TaskState :=
  if h : t.current_step_index < t.plan.length then
    let step := t.plan.get ⟨t.current_step_index, h⟩
    { t with plan := t.plan.set t.current_step_index { step with status := .completed },
             current_step_index := t.current_step_index + 1 }
  else t

/-- Tail of `resume_after_interruption` (app/orchestrator.py lines 449-462):
clear the interruption fields, then set `EXECUTING` if a plan exists,
otherwise reset to `PENDING`. -/
def finishResume (t : TaskState) : TaskState × Option String :=
  let t1 := { t with interrupt_reason := none, interrupt_data := none }
  if t1.plan.isEmpty then ({ t1 with status := .pending }, none)
  else ({ t1 with status := .executing }, none)

/-- `AgentOrchestrator.resume_after_interruption` (app/orchestrator.py lines
377-464).  The second component is the error string of a failure response
(`none` means the `{"success": True, "status": "resumed"}` reply).  Note the
declined-payment and denied-approval branches return early, before the
"Clear interruption state" lines. -/
def resumeAfterInterruption (t : TaskState) (resp : UserResponse) :
    TaskState × Option String :=
  if t.status ≠ TaskStatus.interrupted then
    (t, some ("Task not interrupted (status: " ++ statusValue t.status ++ ")"))
  else
    let t := { t with context := aset t.context "user_response" (.d (respToCtx resp)) }
    if t.interrupt_reason = some "payment_required" then
      if resp.approved then
        let ctx := aset (aset t.context "user_payment_method"
            (.s (resp.payment_method.getD "default"))) "payment_approved" (.b true)
        finishResume (completeCurrentStep { t with context := ctx })
      else
        ({ t with status := .failed,
                  context := aset t.context "failure_reason"
                    (.s "Payment declined by user") },
         some "Payment declined")
    else if t.interrupt_reason = some "approval_needed" then
      if resp.approved then
        let ctx := aset (aset t.context "approval_response" (.d (respToCtx resp)))
          "approval_received" (.b true)
        finishResume (completeCurrentStep { t with context := ctx })
      else
        ({ t with status := .failed }, some "Approval denied")
    else if t.interrupt_reason = some "clarification_needed" then
      let ctx := aset t.context "clarification_answer" (.s resp.answer)
      let goal := ctxGetStr ctx "goal" "" ++ " - Additional info: " ++ resp.answer
      let t := { t with context := aset ctx "goal" (.s goal) }
      let t :=
        if h : t.current_step_index < t.plan.length then
          if (t.plan.get ⟨t.current_step_index, h⟩).action_type = "request_user_help"
          then completeCurrentStep t else t
        else t
      finishResume t
    else finishResume t

/-- A regex word character, `\w` in the `\x7b\x7b(\w+)\x7d\x7d` pattern of
`_resolve_parameters` (ASCII fragment: letters, digits, underscore). -/
def isWordChar (c : Char) : Bool :=
  c.isAlphanum || c = '_'

/-- Split a character list into its longest leading run of word characters
and the remainder (the greedy `\w+` of the pattern). -/
def takeWord : List Char → List Char × List Char
  | [] => ([], [])
  | c :: rest =>
    if isWordChar c then
      let p := takeWord rest
      (c :: p.1, p.2)
    else ([], c :: rest)

theorem takeWord_append (l : List Char) :
    (takeWord l).1 ++ (takeWord l).2 = l := by
  induction l with
  | nil => rfl
  | cons c rest ih =>
    by_cases h : isWordChar c = true <;> simp [takeWord, h, ih]

theorem takeWord_snd_length (l : List Char) :
    (takeWord l).2.length ≤ l.length := by
  conv_rhs => rw [← takeWord_append l]
  simp

/-- `re.sub(r"\x7b\x7b(\w+)\x7d\x7d", replace_var, value)` of
`_resolve_parameters` (app/executor.py lines 91-97): leftmost-first
non-overlapping scan; a matched variable present in the context is replaced
by `str` of its value, an absent one keeps the match text verbatim. -/
def substVars (ctx : List (String × String)) (l : List Char) : List Char :=
  match l with
  | [] => []
  | '{' :: '{' :: rest =>
    let w := (takeWord rest).1
    match hr : (takeWord rest).2 with
    | '}' :: '}' :: rest2 =>
      if w.isEmpty then '{' :: substVars ctx ('{' :: rest)
      else
        match alookup ctx (String.mk w) with
        | some v => v.toList ++ substVars ctx rest2
        | none => '{' :: '{' :: (w ++ '}' :: '}' :: substVars ctx rest2)
    | _ => '{' :: substVars ctx ('{' :: rest)
  | c :: rest => c :: substVars ctx rest
  termination_by l.length
  decreasing_by
  · simp
  · have h1 : (takeWord rest).2.length ≤ rest.length := takeWord_snd_length rest
    rw [hr] at h1
    simp at h1 ⊢
    omega
  · simp
  · simp

/-- The variables the pattern matches in a string, mirroring the scan of
`substVars` (independent of the context). -/
def matchedVars (l : List Char) : List String :=
  match l with
  | [] => []
  | '{' :: '{' :: rest =>
    let w := (takeWord rest).1
    match hr : (takeWord rest).2 with
    | '}' :: '}' :: rest2 =>
      if w.isEmpty then matchedVars ('{' :: rest)
      else String.mk w :: matchedVars rest2
    | _ => matchedVars ('{' :: rest)
  | _ :: rest => matchedVars rest
  termination_by l.length
  decreasing_by
  · simp
  · have h1 : (takeWord rest).2.length ≤ rest.length := takeWord_snd_length rest
    rw [hr] at h1
    simp at h1 ⊢
    omega
  · simp
  · simp

/-- A step parameter value as `_resolve_parameters` distinguishes them:
a string, a nested dict, a list, or any other Python value (tagged). -/
inductive PValue where
  | str (s : String)
  | dict (m : List (String × PValue))
  | list (l : List PValue)
  | other (tag : Nat)

/-- A resolved parameter value: resolution can introduce Python `None`. -/
inductive RValue where
  | vnone
  | str (s : String)
  | dict (m : List (String × RValue))
  | list (l : List RValue)
  | other (tag : Nat)

mutual

/-- Identity embedding of an unresolved value into resolved values (the
source appends such values unchanged). -/
def pToR : PValue → RValue
  | .str s => .str s
  | .other n => .other n
  | .dict m => .dict (pToRMap m)
  | .list l => .list (pToRList l)

def pToRMap : List (String × PValue) → List (String × RValue)
  | [] => []
  | (k, v) :: rest => (k, pToR v) :: pToRMap rest

def pToRList : List PValue → List RValue
  | [] => []
  | v :: rest => pToR v :: pToRList rest

end

/-- The direct-template branch: `value[2:-2]` looked up with
`context.get`, yielding Python `None` when the key is absent. -/
def directResolve (ctx : List (String × String)) (s : String) : RValue :=
  match alookup ctx (strSlice s 2 2) with
  | some v => .str v
  | none => .vnone

mutual

/-- Per-value case analysis of `ExecutorEngine._resolve_parameters`
(app/executor.py lines 78-116).  A string that is exactly a template
reference resolves through `context.get` (possibly to `None`); a string
merely containing template markers goes through the regex substitution; a
nested dict is resolved recursively; list items are resolved only when they
are exact template references; anything else passes through.  The context is
restricted to string values here (only presence or absence of a key matters
for the properties proved below). -/
def resolveValue (ctx : List (String × String)) : PValue → RValue
  | .str s =>
    if strStartsWith s "\x7b\x7b" && strEndsWith s "\x7d\x7d" then
      directResolve ctx s
    else if strContains s "\x7b\x7b" && strContains s "\x7d\x7d" then
      .str (String.mk (substVars ctx s.toList))
    else .str s
  | .dict m => .dict (resolveParams ctx m)
  | .list l => .list (resolveItems ctx l)
  | .other n => .other n

/-- `_resolve_parameters` over the parameter map. -/
def resolveParams (ctx : List (String × String)) :
    List (String × PValue) → List (String × RValue)
  | [] => []
  | (k, v) :: rest => (k, resolveValue ctx v) :: resolveParams ctx rest

/-- The list branch (app/executor.py lines 103-112). -/
def resolveItems (ctx : List (String × String)) : List PValue → List RValue
  | [] => []
  | item :: rest =>
    (match item with
      | .str s =>
        if strStartsWith s "\x7b\x7b" && strEndsWith s "\x7d\x7d" then
          directResolve ctx s
        else pToR item
      | _ => pToR item) :: resolveItems ctx rest

end

/-! ## Helper lemmas -/

theorem alookup_aset_self {α : Type} (m : List (String × α)) (k : String) (v : α) :
    alookup (aset m k v) k = some v := by
  induction m with
  | nil => simp [aset, alookup]
  | cons kv rest ih =>
    obtain ⟨k', w⟩ := kv
    by_cases h : k' = k <;> simp [aset, alookup, h, ih]

theorem alookup_aset_ne {α : Type} (m : List (String × α)) (k k' : String) (v : α)
    (h : k ≠ k') : alookup (aset m k v) k' = alookup m k' := by
  induction m with
  | nil => simp [aset, alookup, h]
  | cons kv rest ih =>
    obtain ⟨k0, w⟩ := kv
    by_cases h0 : k0 = k
    · subst h0
      simp [aset, alookup, h]
    · simp [aset, h0, alookup, ih]

theorem alookupD_aset_self {α : Type} (m : List (String × α)) (k : String)
    (v d : α) : alookupD (aset m k v) k d = v := by
  simp [alookupD, alookup_aset_self]

/-- `recordFailure` never changes the `failures` entry of the resulting
breaker beyond the single increment, whatever the threshold branch does. -/
theorem recordFailure_failures (cb : CircuitBreaker) (s : String) (now : Nat) :
    (recordFailure cb s now).failures =
      aset cb.failures s (alookupD cb.failures s 0 + 1) := by
  unfold recordFailure
  split <;> rfl

theorem recordFailure_state_of_ge (cb : CircuitBreaker) (s : String) (now : Nat)
    (h : alookupD cb.failures s 0 + 1 ≥ cb.failure_threshold) :
    (recordFailure cb s now).state = aset cb.state s .open_ := by
  unfold recordFailure
  rw [if_pos h]

theorem recordFailure_state_of_lt (cb : CircuitBreaker) (s : String) (now : Nat)
    (h : alookupD cb.failures s 0 + 1 < cb.failure_threshold) :
    (recordFailure cb s now).state = cb.state := by
  unfold recordFailure
  rw [if_neg (by omega)]

theorem recordSuccess_failures (cb : CircuitBreaker) (s : String) :
    (recordSuccess cb s).failures =
      aset cb.failures s (alookupD cb.failures s 0 - 1) := by
  unfold recordSuccess
  split <;> rfl

/-- `is_open` only ever rewrites the per-service state string; the failure
counters and timestamps are untouched. -/
theorem isOpen_failures (cb : CircuitBreaker) (now : Nat) (s : String) :
    (isOpen cb now s).2.failures = cb.failures := by
  unfold isOpen
  split
  · rfl
  · split
    · split <;> rfl
    · rfl

/-! ## Claim C2 — invalid transitions are rejected and change nothing -/

/-- Written from the spec's words: the transition table of section 4.1,
row by row, to be compared with the code's `STATE_TRANSITIONS` dict. -/
def SPEC_TRANSITIONS : TaskStatus → List TaskStatus
  | .pending => [.analyzing]
  | .analyzing => [.planning, .interrupted, .failed]
  | .planning => [.executing, .interrupted, .failed]
  | .executing => [.waiting, .retrying, .validating, .interrupted, .failed]
  | .waiting => [.executing, .interrupted]
  | .retrying => [.executing, .failed]
  | .interrupted => [.executing, .failed]
  | .validating => [.completed, .executing, .failed]
  | .completed => []
  | .failed => []

/-- C2.  The code's transition dict coincides with the spec's section 4.1
table; for every `(from, to)` status pair not listed in it,
`_transition_state` raises `StateTransitionError` (here: returns the error
message) and leaves the task — in particular its status — unchanged; and
`COMPLETED` and `FAILED` have no outgoing transitions at all (they are
absent from `STATE_TRANSITIONS`, so their allowed list is empty). -/
theorem claim_c2 :
    (∀ (t : TaskState) (n : TaskStatus), n ∉ STATE_TRANSITIONS t.status →
      (transitionState t n).1 = t ∧ (transitionState t n).2.isSome) ∧
    STATE_TRANSITIONS .completed = [] ∧ STATE_TRANSITIONS .failed = [] ∧
    (∀ st : TaskStatus, STATE_TRANSITIONS st = SPEC_TRANSITIONS st) := by
  refine ⟨fun t n h => ?_, rfl, rfl, fun st => by cases st <;> rfl⟩
  simp [transitionState, h]

/-- Witness for C2: a `COMPLETED` task rejects the transition to `PENDING`
unchanged. -/
theorem claim_c2_witness :
    (transitionState { task_id := "t1", user_id := "u1", status := .completed }
        .pending).1 =
      { task_id := "t1", user_id := "u1", status := .completed } ∧
    (transitionState { task_id := "t1", user_id := "u1", status := .completed }
        .pending).2.isSome :=
  claim_c2.1 _ _ (by decide)

/-! ## Claim C4 — circuit breaker accounting and gating -/

/-- C4.  For every action-type key: `record_failure` increments that key's
failure count and opens the breaker exactly when the count reaches the
threshold of 5 (below 5 the state map is unchanged); while open, `is_open`
returns `true` (with the breaker unchanged) until more than the 300-second
recovery window has elapsed since the last recorded failure, after which it
flips the key to half-open and returns `false`, allowing one probe; one
`record_success` during half-open closes the breaker; and `record_success`
only decrements the failure count by 1, floored at 0 (truncated natural
subtraction), never resetting it to zero outright. -/
theorem claim_c4 (cb : CircuitBreaker) (service : String) (now : Nat)
    (hthr : cb.failure_threshold = 5) (hrec : cb.recovery_timeout = 300) :
    (alookupD (recordFailure cb service now).failures service 0 =
      alookupD cb.failures service 0 + 1) ∧
    (alookupD cb.failures service 0 + 1 ≥ 5 →
      alookup (recordFailure cb service now).state service = some .open_) ∧
    (alookupD cb.failures service 0 + 1 < 5 →
      (recordFailure cb service now).state = cb.state) ∧
    (alookup cb.state service = some .open_ →
      (now - alookupD cb.last_failure_time service 0 ≤ 300 →
        isOpen cb now service = (true, cb)) ∧
      (now - alookupD cb.last_failure_time service 0 > 300 →
        (isOpen cb now service).1 = false ∧
        alookup (isOpen cb now service).2.state service = some .halfOpen)) ∧
    (alookup cb.state service = some .halfOpen →
      alookup (recordSuccess cb service).state service = some .closed) ∧
    (alookupD (recordSuccess cb service).failures service 0 =
      alookupD cb.failures service 0 - 1) := by
  refine ⟨?_, ?_, ?_, ?_, ?_, ?_⟩
  · rw [recordFailure_failures, alookupD_aset_self]
  · intro h
    rw [recordFailure_state_of_ge cb service now (by omega), alookup_aset_self]
  · intro h
    exact recordFailure_state_of_lt cb service now (by omega)
  · intro hopen
    have hred : isOpen cb now service =
        (if now - alookupD cb.last_failure_time service 0 > cb.recovery_timeout
         then (false, { cb with state := aset cb.state service .halfOpen })
         else (true, cb)) := by
      unfold isOpen
      rw [hopen]
      rfl
    constructor
    · intro hle
      rw [hred, if_neg (by rw [hrec]; omega)]
    · intro hgt
      rw [hred, if_pos (by rw [hrec]; omega)]
      exact ⟨rfl, alookup_aset_self _ _ _⟩
  · intro hhalf
    unfold recordSuccess
    rw [if_pos hhalf]
    exact alookup_aset_self _ _ _
  · rw [recordSuccess_failures, alookupD_aset_self]

/-- A concrete breaker that has been open for the key "svc" since second
100, used by the C4 witness. -/
def openBreaker : CircuitBreaker :=
  { state := [("svc", .open_)], last_failure_time := [("svc", 100)],
    failures := [("svc", 5)] }

/-- Witness for C4: with the default breaker, a first recorded failure sets
the count to 1 without opening; and a breaker that has been open since
second 100 flips to half-open when probed at second 401. -/
theorem claim_c4_witness :
    (alookupD (recordFailure {} "svc" 7).failures "svc" 0 =
      alookupD ({} : CircuitBreaker).failures "svc" 0 + 1) ∧
    ((isOpen openBreaker 401 "svc").1 = false ∧
      alookup (isOpen openBreaker 401 "svc").2.state "svc" = some .halfOpen) :=
  ⟨(claim_c4 {} "svc" 7 rfl rfl).1,
   ((claim_c4 openBreaker "svc" 401 rfl rfl).2.2.2.1 (by decide)).2 (by decide)⟩

/-! ## Claim C9 — breaker behaviour around the open to half-open flip -/

/-- Five failures recorded for "svc" at second 100: the breaker opens with
the count at the threshold. -/
def c9base : CircuitBreaker :=
  recordFailure (recordFailure (recordFailure (recordFailure
    (recordFailure {} "svc" 100) "svc" 100) "svc" 100) "svc" 100) "svc" 100

/-- Two successes recorded while the breaker is open (reachable: the retry
engine records a success after the circuit-open wait): the count decays to 3
but the state stays open. -/
def c9decayed : CircuitBreaker :=
  recordSuccess (recordSuccess c9base "svc") "svc"

/-- Probing at second 401 (past the 300-second window) flips to half-open. -/
def c9flip : Bool × CircuitBreaker := isOpen c9decayed 401 "svc"

/-- Counterexample to C9 as stated.  After 5 failures and 2 successes while
open, the breaker flips from open to half-open with its failure count at 3 —
strictly below the threshold of 5 — and a single recorded failure during the
half-open probe does NOT re-open the breaker: the state remains half-open. -/
theorem claim_c9_counterexample :
    alookup c9decayed.state "svc" = some CircState.open_ ∧
    c9flip.1 = false ∧
    alookup c9flip.2.state "svc" = some CircState.halfOpen ∧
    alookupD c9flip.2.failures "svc" 0 = 3 ∧
    alookup (recordFailure c9flip.2 "svc" 401).state "svc" =
      some CircState.halfOpen := by
  decide

/-- C9 as amended.  The flip from open to half-open indeed leaves the
failure count untouched (`is_open` never writes the counters), but the count
at flip time need not be at the threshold: a failure recorded during the
half-open probe re-opens the breaker exactly when the incremented count
reaches the threshold (so only in the no-success-while-open scenario is
re-opening immediate); and a success recorded while the state is open (not
half-open) never closes the breaker directly. -/
theorem claim_c9_amended :
    (∀ (cb : CircuitBreaker) (now : Nat) (s : String),
      (isOpen cb now s).2.failures = cb.failures) ∧
    (∀ (cb : CircuitBreaker) (s : String) (now : Nat),
      alookup cb.state s = some CircState.halfOpen →
      (alookup (recordFailure cb s now).state s = some CircState.open_ ↔
        alookupD cb.failures s 0 + 1 ≥ cb.failure_threshold)) ∧
    (∀ (cb : CircuitBreaker) (s : String),
      alookup cb.state s = some CircState.open_ →
      alookup (recordSuccess cb s).state s = some CircState.open_) := by
  refine ⟨isOpen_failures, fun cb s now hhalf => ?_, fun cb s hopen => ?_⟩
  · by_cases h : alookupD cb.failures s 0 + 1 ≥ cb.failure_threshold
    · rw [recordFailure_state_of_ge cb s now h, alookup_aset_self]
      simp [h]
    · rw [recordFailure_state_of_lt cb s now (by omega), hhalf]
      simp only [Option.some_inj]
      constructor
      · intro hc
        cases hc
      · intro hc
        omega
  · unfold recordSuccess
    rw [if_neg (by rw [hopen]; simp)]
    exact hopen

/-- A breaker probing half-open with 4 remembered failures, for the C9
witness. -/
def halfOpenBreaker : CircuitBreaker :=
  { state := [("svc", .halfOpen)], failures := [("svc", 4)] }

/-- Witness for the amended C9: a failure during half-open with the count
one below the threshold re-opens; a success while open leaves the breaker
open. -/
theorem claim_c9_amended_witness :
    (alookup (recordFailure halfOpenBreaker "svc" 500).state "svc" =
        some CircState.open_ ↔
      alookupD halfOpenBreaker.failures "svc" 0 + 1 ≥
        halfOpenBreaker.failure_threshold) ∧
    alookup (recordSuccess openBreaker "svc").state "svc" =
      some CircState.open_ :=
  ⟨claim_c9_amended.2.1 halfOpenBreaker "svc" 500 (by decide),
   claim_c9_amended.2.2 openBreaker "svc" (by decide)⟩

/-! ## Claim C1 — interruption signals propagate untouched -/

/-- `_handle_interruption` always ends with status `INTERRUPTED` (forcing it
when the transition table would refuse) and stores the signal's reason and
data. -/
theorem handleInterruption_spec (t : TaskState) (reason : String) (data : Ctx) :
    (handleInterruption t reason data).status = .interrupted ∧
    (handleInterruption t reason data).interrupt_reason = some reason ∧
    (handleInterruption t reason data).interrupt_data = some data := by
  by_cases h : TaskStatus.interrupted ∈ STATE_TRANSITIONS t.status <;>
    simp [handleInterruption, transitionState, h]

/-- C1.  A `HumanInterruptionRequired` signal raised by the step executor
on ANY attempt of the retry loop propagates out of `execute_with_retry`
untouched — the loop returns the `interrupted` variant with the signal's
own reason and data at that very iteration, adding no retry sleep and
recording no circuit-breaker failure (never converted to a needs-replan or
exhausted step failure); in particular, a signal raised on attempt 1
(attempt index 0) of a step with `maxRetries = 3` yields exactly one
executor invocation, an empty sleep trace, and unchanged failure counters.
The orchestrator's interruption handler then ends the task in status
`INTERRUPTED` with the signal's reason and data stored. -/
theorem claim_c1 (step : ExecutionStep) (tool : Nat → ToolOut) (ctx : Ctx)
    (delay : RetryStrategy → Nat → Nat) (cb : CircuitBreaker) (now : Nat)
    (t : TaskState) (reason : String) (data : Ctx)
    (hmr : step.max_retries = 3) (htool : tool 0 = .interrupt reason data) :
    (∀ (st : RetryState) (attempt : Nat) (lastErr : String) (r : Nat),
      tool attempt = .interrupt reason data →
      (executeWithRetryAux step tool ctx delay st attempt lastErr (r + 1)).1 =
        .interrupted reason data ∧
      (executeWithRetryAux step tool ctx delay st attempt lastErr
        (r + 1)).2.sleeps = st.sleeps ∧
      (executeWithRetryAux step tool ctx delay st attempt lastErr
        (r + 1)).2.cb.failures = st.cb.failures ∧
      (executeWithRetryAux step tool ctx delay st attempt lastErr
        (r + 1)).2.invocations = st.invocations + 1) ∧
    (executeWithRetry step tool ctx delay cb now).1 =
      .interrupted reason data ∧
    (executeWithRetry step tool ctx delay cb now).2.invocations = 1 ∧
    (executeWithRetry step tool ctx delay cb now).2.sleeps = [] ∧
    (executeWithRetry step tool ctx delay cb now).2.cb.failures = cb.failures ∧
    (handleInterruption t reason data).status = .interrupted ∧
    (handleInterruption t reason data).interrupt_reason = some reason ∧
    (handleInterruption t reason data).interrupt_data = some data := by
  have hgen : ∀ (st : RetryState) (attempt : Nat) (lastErr : String) (r : Nat),
      tool attempt = .interrupt reason data →
      (executeWithRetryAux step tool ctx delay st attempt lastErr (r + 1)).1 =
        .interrupted reason data ∧
      (executeWithRetryAux step tool ctx delay st attempt lastErr
        (r + 1)).2.sleeps = st.sleeps ∧
      (executeWithRetryAux step tool ctx delay st attempt lastErr
        (r + 1)).2.cb.failures = st.cb.failures ∧
      (executeWithRetryAux step tool ctx delay st attempt lastErr
        (r + 1)).2.invocations = st.invocations + 1 := by
    intro st attempt lastErr r ht
    have hexec : execStepOut step (tool attempt) = .interrupt reason data := by
      rw [ht]
      simp [execStepOut]
    have hfail := isOpen_failures st.cb st.now step.action_type
    rcases hio : isOpen st.cb st.now step.action_type with ⟨opened, cb1⟩
    rw [hio] at hfail
    simp only at hfail
    cases opened <;> simp [executeWithRetryAux, hio, hexec, hfail]
  have hh := handleInterruption_spec t reason data
  refine ⟨hgen, ?_⟩
  have hmain := hgen { cb := cb, now := now } 0 "None" step.max_retries htool
  unfold executeWithRetry
  rw [hmr] at hmain ⊢
  exact ⟨hmain.1, hmain.2.2.2, hmain.2.1, hmain.2.2.1,
    hh.1, hh.2.1, hh.2.2⟩

/-- The payment-approval step of the C1 witness scenario. -/
def c1step : ExecutionStep :=
  { id := "s1", action_type := "request_payment_approval" }

/-- A tool that raises `HumanInterruptionRequired("payment_required", ...)`
on every attempt. -/
def c1tool : Nat → ToolOut :=
  fun _ => .interrupt "payment_required" [("amount", .n 680)]

/-- An executing task for the C1 witness. -/
def c1task : TaskState :=
  { task_id := "t1", user_id := "u1", status := .executing }

/-- Witness for C1 at a concrete step, tool, breaker and task. -/
theorem claim_c1_witness :
    (executeWithRetry c1step c1tool [] (fun _ _ => 2) {} 0).1 =
      .interrupted "payment_required" [("amount", .n 680)] ∧
    (executeWithRetry c1step c1tool [] (fun _ _ => 2) {} 0).2.invocations = 1 ∧
    (executeWithRetry c1step c1tool [] (fun _ _ => 2) {} 0).2.sleeps = [] ∧
    (executeWithRetry c1step c1tool [] (fun _ _ => 2) {} 0).2.cb.failures =
      ({} : CircuitBreaker).failures ∧
    (handleInterruption c1task "payment_required"
      [("amount", .n 680)]).status = .interrupted ∧
    (handleInterruption c1task "payment_required"
      [("amount", .n 680)]).interrupt_reason = some "payment_required" ∧
    (handleInterruption c1task "payment_required"
      [("amount", .n 680)]).interrupt_data = some [("amount", .n 680)] ∧
    (executeWithRetryAux c1step c1tool [] (fun _ _ => 2)
        { cb := {}, now := 5 } 2 "prev" 2).1 =
      .interrupted "payment_required" [("amount", .n 680)] := by
  have h := claim_c1 c1step c1tool [] (fun _ _ => 2) {} 0 c1task
    "payment_required" [("amount", .n 680)] rfl rfl
  exact ⟨h.2.1, h.2.2.1, h.2.2.2.1, h.2.2.2.2.1, h.2.2.2.2.2.1,
    h.2.2.2.2.2.2.1, h.2.2.2.2.2.2.2,
    (h.1 { cb := {}, now := 5 } 2 "prev" 1 rfl).1⟩

/-! ## Claim C8 — failure classification priority -/

/-- The flight-search step of the C8 scenario. -/
def c8step : ExecutionStep :=
  { id := "s1", action_type := "search_flights" }

/-- A tool whose failure message contains "unavailable" but also
"connection", so the earlier network rule fires first. -/
def c8tool : Nat → ToolOut :=
  fun _ => .err "connection unavailable"

/-- Counterexample to C8 as stated.  The message "connection unavailable"
contains "unavailable", yet classification returns `EXPONENTIAL` (the
network rule precedes the not-found rule), and the retry engine does NOT
return `NeedsReplan` immediately: it retries with backoff on every attempt
and ends `Exhausted` after 4 attempts with 3 retry sleeps. -/
theorem claim_c8_counterexample :
    strContains "connection unavailable" "unavailable" = true ∧
    selectStrategy "connection unavailable" 0 = .exponential ∧
    (executeWithRetry c8step c8tool [] (fun _ _ => 2) {} 0).1 =
      .exhausted "Step s1 failed: connection unavailable" 4 ∧
    (executeWithRetry c8step c8tool [] (fun _ _ => 2) {} 0).2.sleeps =
      [(.exponential, 0), (.exponential, 1), (.exponential, 2)] :=
  ⟨rfl, rfl, rfl, rfl⟩

/-- First-match-wins: a lowercased message containing "unavailable" that
matches none of the earlier network / rate-limit / auth rules classifies as
`ALTERNATIVE` via the not-found rule, never reaching the later
temporarily-unavailable rule. -/
theorem selectStrategy_alternative (m : String) (attempt : Nat)
    (h1 : containsAny (strToLower m)
      ["timeout", "connection", "network", "503", "502", "504"] = false)
    (h2 : containsAny (strToLower m) ["rate limit", "429", "too many requests"] = false)
    (h3 : containsAny (strToLower m)
      ["auth", "unauthorized", "401", "403", "forbidden"] = false)
    (hu : strContains (strToLower m) "unavailable" = true) :
    selectStrategy m attempt = .alternative := by
  have h4 : containsAny (strToLower m)
      ["not found", "404", "unavailable", "no longer available"] = true := by
    simp [containsAny, hu]
  simp [selectStrategy, h1, h2, h3, h4]

/-- C8 as amended.  Classification is a case-insensitive substring match,
first match wins, in the source's priority order; consequently, for every
failure message containing "unavailable" that matches NONE of the earlier
network, rate-limit and auth rules, the earlier not-found rule wins over the
later temporarily-unavailable rule: the strategy is `ALTERNATIVE` and the
retry engine returns `NeedsReplan` immediately after a single execution
attempt, with no retry sleep.  (As stated the claim is false: a message such
as "connection unavailable" matches the network rule first and is retried
with `EXPONENTIAL` backoff.) -/
theorem claim_c8_amended :
    (∀ (m : String) (attempt : Nat),
      containsAny (strToLower m)
        ["timeout", "connection", "network", "503", "502", "504"] = false →
      containsAny (strToLower m) ["rate limit", "429", "too many requests"] = false →
      containsAny (strToLower m)
        ["auth", "unauthorized", "401", "403", "forbidden"] = false →
      strContains (strToLower m) "unavailable" = true →
      selectStrategy m attempt = .alternative) ∧
    (∀ (step : ExecutionStep) (tool : Nat → ToolOut) (ctx : Ctx)
      (delay : RetryStrategy → Nat → Nat) (cb : CircuitBreaker) (now : Nat)
      (m : String),
      tool 0 = .err m →
      containsAny (strToLower ("Step " ++ step.id ++ " failed: " ++ m))
        ["timeout", "connection", "network", "503", "502", "504"] = false →
      containsAny (strToLower ("Step " ++ step.id ++ " failed: " ++ m))
        ["rate limit", "429", "too many requests"] = false →
      containsAny (strToLower ("Step " ++ step.id ++ " failed: " ++ m))
        ["auth", "unauthorized", "401", "403", "forbidden"] = false →
      strContains (strToLower ("Step " ++ step.id ++ " failed: " ++ m))
        "unavailable" = true →
      (executeWithRetry step tool ctx delay cb now).1 =
        .needsReplan ("Step " ++ step.id ++ " failed: " ++ m) 1 ∧
      (executeWithRetry step tool ctx delay cb now).2.invocations = 1 ∧
      (executeWithRetry step tool ctx delay cb now).2.sleeps = []) := by
  refine ⟨selectStrategy_alternative, ?_⟩
  intro step tool ctx delay cb now m htool h1 h2 h3 hu
  have hexec : execStepOut step (tool 0) =
      .err ("Step " ++ step.id ++ " failed: " ++ m) := by
    rw [htool]
    simp [execStepOut]
  have hstrat := selectStrategy_alternative
    ("Step " ++ step.id ++ " failed: " ++ m) 0 h1 h2 h3 hu
  rcases hio : isOpen cb now step.action_type with ⟨opened, cb1⟩
  unfold executeWithRetry
  cases hmr : step.max_retries with
  | zero => cases opened <;> simp [executeWithRetryAux, hio, hexec, hstrat]
  | succ k => cases opened <;> simp [executeWithRetryAux, hio, hexec, hstrat]

/-- A tool failing with "seat unavailable" for the C8 witness. -/
def c8toolB : Nat → ToolOut :=
  fun _ => .err "seat unavailable"

/-- Witness for the amended C8: "seat unavailable" matches no earlier rule,
classifies `ALTERNATIVE`, and yields an immediate `NeedsReplan` after one
attempt with no sleeps. -/
theorem claim_c8_amended_witness :
    selectStrategy "seat unavailable" 1 = .alternative ∧
    (executeWithRetry c8step c8toolB [] (fun _ _ => 2) {} 0).1 =
      .needsReplan "Step s1 failed: seat unavailable" 1 ∧
    (executeWithRetry c8step c8toolB [] (fun _ _ => 2) {} 0).2.invocations = 1 ∧
    (executeWithRetry c8step c8toolB [] (fun _ _ => 2) {} 0).2.sleeps = [] :=
  ⟨claim_c8_amended.1 "seat unavailable" 1 (by decide) (by decide) (by decide)
      (by decide),
   claim_c8_amended.2 c8step c8toolB [] (fun _ _ => 2) {} 0 "seat unavailable"
      rfl (by decide) (by decide) (by decide) (by decide)⟩

/-! ## Claim C6 — forced completion caps the validate/replan cycle -/

/-- One not-completed, needs-more-work validation round with the counter
below 3: `_validate_and_complete` increments the counter, appends the new
steps and puts the task back in `EXECUTING`. -/
theorem validateAndComplete_replanned (t : TaskState) (ns : List ExecutionStep)
    (k : Nat) (hstatus : t.status = .executing)
    (hk : ctxGetNat t.context "_replan_count" 0 = k) (hklt : k < 3) :
    validateAndComplete t ⟨false, true⟩ ns =
      ({ t with status := .executing,
                context := aset t.context "_replan_count" (.n (k + 1)),
                plan := t.plan ++ ns }, .replanned) := by
  simp [validateAndComplete, transitionState, hstatus, STATE_TRANSITIONS, hk,
    Nat.not_le.mpr hklt]

/-- One validation round with the counter at 3 or more: the task is forced
to `COMPLETED` with the "Forced completion after max retries" annotation. -/
theorem validateAndComplete_forced (t : TaskState) (v : Validation)
    (ns : List ExecutionStep) (hstatus : t.status = .executing)
    (hv : v.completed = false)
    (hk : ctxGetNat t.context "_replan_count" 0 ≥ 3) :
    validateAndComplete t v ns =
      ({ t with status := .completed },
       .forcedCompleted "Forced completion after max retries") := by
  simp [validateAndComplete, transitionState, hstatus, hv, hk, STATE_TRANSITIONS]

theorem validateReplanLoop_step (t : TaskState) (ns : List ExecutionStep)
    (fuel k : Nat) (hstatus : t.status = .executing)
    (hk : ctxGetNat t.context "_replan_count" 0 = k) (hklt : k < 3) :
    validateReplanLoop ⟨false, true⟩ ns t (fuel + 1) =
      ((validateReplanLoop ⟨false, true⟩ ns
          { t with status := .executing,
                   context := aset t.context "_replan_count" (.n (k + 1)),
                   plan := t.plan ++ ns } fuel).1,
       (validateReplanLoop ⟨false, true⟩ ns
          { t with status := .executing,
                   context := aset t.context "_replan_count" (.n (k + 1)),
                   plan := t.plan ++ ns } fuel).2.1,
       (validateReplanLoop ⟨false, true⟩ ns
          { t with status := .executing,
                   context := aset t.context "_replan_count" (.n (k + 1)),
                   plan := t.plan ++ ns } fuel).2.2 + 1) := by
  rw [validateReplanLoop, validateAndComplete_replanned t ns k hstatus hk hklt]

theorem validateReplanLoop_stop (t : TaskState) (ns : List ExecutionStep)
    (fuel : Nat) (hstatus : t.status = .executing)
    (hk : ctxGetNat t.context "_replan_count" 0 ≥ 3) :
    validateReplanLoop ⟨false, true⟩ ns t (fuel + 1) =
      ({ t with status := .completed },
       .forcedCompleted "Forced completion after max retries", 1) := by
  rw [validateReplanLoop,
    validateAndComplete_forced t ⟨false, true⟩ ns hstatus rfl hk]

/-- C6.  When validation reports the task not completed and
`context["_replan_count"]` (default 0) has reached 3,
`_validate_and_complete` forces status `COMPLETED` with the
"Forced completion after max retries" annotation instead of replanning or
failing; and a validator returning `needsMoreWork = true` four times in a
row for a task that starts with no replan counter forces `COMPLETED` on the
4th validation cycle — the loop never runs unboundedly. -/
theorem claim_c6 :
    (∀ (t : TaskState) (v : Validation) (ns : List ExecutionStep),
      t.status = .executing → v.completed = false →
      ctxGetNat t.context "_replan_count" 0 ≥ 3 →
      validateAndComplete t v ns =
        ({ t with status := .completed },
         .forcedCompleted "Forced completion after max retries")) ∧
    (∀ (t : TaskState) (ns : List ExecutionStep),
      t.status = .executing →
      ctxGetNat t.context "_replan_count" 0 = 0 →
      (validateReplanLoop ⟨false, true⟩ ns t 10).2.2 = 4 ∧
      (validateReplanLoop ⟨false, true⟩ ns t 10).2.1 =
        .forcedCompleted "Forced completion after max retries" ∧
      (validateReplanLoop ⟨false, true⟩ ns t 10).1.status = .completed) := by
  refine ⟨validateAndComplete_forced, ?_⟩
  intro t ns hstatus hk
  have g1 : ∀ (c : Ctx) (j : Nat),
      ctxGetNat (aset c "_replan_count" (.n j)) "_replan_count" 0 = j := by
    intro c j
    simp [ctxGetNat, alookup_aset_self]
  rw [validateReplanLoop_step t ns 9 0 hstatus hk (by omega)]
  rw [validateReplanLoop_step _ ns 8 1 rfl (g1 _ _) (by omega)]
  rw [validateReplanLoop_step _ ns 7 2 rfl (g1 _ _) (by omega)]
  rw [validateReplanLoop_stop _ ns 6 rfl (by rw [g1])]
  exact ⟨rfl, rfl, rfl⟩

/-- A concrete executing task with an empty context for the C6 witness. -/
def c6task : TaskState :=
  { task_id := "t6", user_id := "u6", status := .executing }

/-- Witness for C6: the concrete 4-cycle run on an executing task with an
empty context ends forced-completed at cycle 4. -/
theorem claim_c6_witness :
    (validateReplanLoop ⟨false, true⟩ [] c6task 10).2.2 = 4 ∧
    (validateReplanLoop ⟨false, true⟩ [] c6task 10).2.1 =
      .forcedCompleted "Forced completion after max retries" ∧
    (validateReplanLoop ⟨false, true⟩ [] c6task 10).1.status = .completed :=
  claim_c6.2 c6task [] rfl rfl

/-! ## Claim C7 — interruption fields versus task status -/

/-- The payment step of the C7 scenario. -/
def c7step : ExecutionStep :=
  { id := "p1", action_type := "request_payment_approval" }

/-- An executing task halfway through a one-step plan. -/
def c7base : TaskState :=
  { task_id := "t7", user_id := "u7", status := .executing, plan := [c7step] }

/-- The task after the orchestrator handles a payment interruption —
exactly the state `_handle_interruption` produces, so it is reachable. -/
def c7task : TaskState :=
  handleInterruption c7base "payment_required" [("amount", .n 680)]

/-- Counterexample to C7 as stated.  Resuming the reachable interrupted task
with a declined payment (`approved = false`) sets status `FAILED` but does
NOT clear `interrupt_reason`/`interrupt_data` (the declined branch returns
before the clearing lines), so the fields are present while the status is
not `INTERRUPTED`. -/
theorem claim_c7_counterexample :
    c7task.status = .interrupted ∧
    (resumeAfterInterruption c7task { approved := false }).1.status = .failed ∧
    (resumeAfterInterruption c7task { approved := false }).1.interrupt_reason =
      some "payment_required" ∧
    (resumeAfterInterruption c7task { approved := false }).1.interrupt_data =
      some [("amount", .n 680)] ∧
    (resumeAfterInterruption c7task { approved := false }).2 =
      some "Payment declined" :=
  ⟨rfl, rfl, rfl, rfl, rfl⟩

/-- `finishResume` always clears both interruption fields and leaves the
task in `PENDING` (no plan) or `EXECUTING` (plan exists). -/
theorem finishResume_spec (t : TaskState) :
    (finishResume t).1.interrupt_reason = none ∧
    (finishResume t).1.interrupt_data = none ∧
    ((finishResume t).1.status = .pending ∨
      (finishResume t).1.status = .executing) := by
  by_cases h : t.plan.isEmpty <;> simp [finishResume, h]

/-- C7 as amended.  The interruption handler sets status `INTERRUPTED`
together with both fields; a resume that continues (any path other than a
declined payment or denied approval) clears both fields and leaves a
non-`INTERRUPTED` status; but a resume in which the user declines payment
or approval sets status `FAILED` while leaving `interrupt_reason` and
`interrupt_data` in place, so the present-iff-`INTERRUPTED` invariant fails
after a declined resume. -/
theorem claim_c7_amended :
    (∀ (t : TaskState) (reason : String) (data : Ctx),
      (handleInterruption t reason data).status = .interrupted ∧
      (handleInterruption t reason data).interrupt_reason = some reason ∧
      (handleInterruption t reason data).interrupt_data = some data) ∧
    (∀ (t : TaskState) (resp : UserResponse),
      t.status = .interrupted →
      (((t.interrupt_reason = some "payment_required" ∨
          t.interrupt_reason = some "approval_needed") ∧
          resp.approved = false) →
        (resumeAfterInterruption t resp).1.status = .failed ∧
        (resumeAfterInterruption t resp).1.interrupt_reason =
          t.interrupt_reason ∧
        (resumeAfterInterruption t resp).1.interrupt_data =
          t.interrupt_data) ∧
      (¬((t.interrupt_reason = some "payment_required" ∨
          t.interrupt_reason = some "approval_needed") ∧
          resp.approved = false) →
        (resumeAfterInterruption t resp).1.interrupt_reason = none ∧
        (resumeAfterInterruption t resp).1.interrupt_data = none ∧
        (resumeAfterInterruption t resp).1.status ≠ .interrupted)) := by
  refine ⟨handleInterruption_spec, fun t resp hstatus => ⟨?_, ?_⟩⟩
  · rintro ⟨hre, hap⟩
    rcases hre with hp | ha
    · simp [resumeAfterInterruption, hstatus, hp, hap]
    · by_cases hp : t.interrupt_reason = some "payment_required"
      · rw [hp] at ha
        simp at ha
      · simp [resumeAfterInterruption, hstatus, hp, ha, hap]
  · intro hnot
    have hcont : ∀ (u : TaskState),
        (finishResume u).1.interrupt_reason = none ∧
        (finishResume u).1.interrupt_data = none ∧
        (finishResume u).1.status ≠ .interrupted := by
      intro u
      obtain ⟨h1, h2, h3⟩ := finishResume_spec u
      refine ⟨h1, h2, ?_⟩
      rcases h3 with h | h <;> simp [h]
    by_cases hp : t.interrupt_reason = some "payment_required"
    · have hap : resp.approved = true := by
        cases hav : resp.approved
        · exact absurd ⟨Or.inl hp, hav⟩ hnot
        · rfl
      simpa [resumeAfterInterruption, hstatus, hp, hap] using hcont _
    · by_cases ha : t.interrupt_reason = some "approval_needed"
      · have hap : resp.approved = true := by
          cases hav : resp.approved
          · exact absurd ⟨Or.inr ha, hav⟩ hnot
          · rfl
        simpa [resumeAfterInterruption, hstatus, hp, ha, hap] using hcont _
      · by_cases hc : t.interrupt_reason = some "clarification_needed"
        · simpa [resumeAfterInterruption, hstatus, hp, ha, hc] using hcont _
        · simpa [resumeAfterInterruption, hstatus, hp, ha, hc] using hcont _

/-- The approving payment response of the C7 witness. -/
def c7resp : UserResponse :=
  { approved := true, payment_method := some "card_ending_4242" }

/-- Witness for the amended C7: approving the payment clears both fields
and moves the task out of `INTERRUPTED`. -/
theorem claim_c7_amended_witness :
    (resumeAfterInterruption c7task c7resp).1.interrupt_reason = none ∧
    (resumeAfterInterruption c7task c7resp).1.interrupt_data = none ∧
    (resumeAfterInterruption c7task c7resp).1.status ≠ .interrupted :=
  (claim_c7_amended.2 c7task c7resp rfl).2 (by decide)

/-! ## Claim C10 — silent partial template resolution -/

theorem toList_wrap (var : String) :
    ("\x7b\x7b" ++ var ++ "\x7d\x7d").toList =
      '{' :: '{' :: (var.toList ++ ['}', '}']) := by
  simp [String.toList]

theorem startsWith_wrap (var : String) :
    strStartsWith ("\x7b\x7b" ++ var ++ "\x7d\x7d") "\x7b\x7b" = true := by
  simp [strStartsWith, toList_wrap, List.isPrefixOf]

theorem endsWith_wrap (var : String) :
    strEndsWith ("\x7b\x7b" ++ var ++ "\x7d\x7d") "\x7d\x7d" = true := by
  simp [strEndsWith, toList_wrap, List.isPrefixOf]

theorem slice_wrap (var : String) :
    strSlice ("\x7b\x7b" ++ var ++ "\x7d\x7d") 2 2 = var := by
  simp [strSlice, toList_wrap]

/-! Conditional unfolding equations for the substitution scan and its
matched-variable mirror. -/

theorem substVars_found_empty (ctx : List (String × String))
    (rest rest2 : List Char)
    (heq : (takeWord rest).2 = '}' :: '}' :: rest2)
    (hwe : (takeWord rest).1.isEmpty = true) :
    substVars ctx ('{' :: '{' :: rest) = '{' :: substVars ctx ('{' :: rest) := by
  rw [substVars]
  split
  · rw [if_pos hwe]
  · rename_i hno
    exact absurd heq (hno rest2)

theorem substVars_found_none (ctx : List (String × String))
    (rest rest2 : List Char)
    (heq : (takeWord rest).2 = '}' :: '}' :: rest2)
    (hwe : ¬ (takeWord rest).1.isEmpty = true)
    (hlk : alookup ctx (String.mk (takeWord rest).1) = none) :
    substVars ctx ('{' :: '{' :: rest) =
      '{' :: '{' :: ((takeWord rest).1 ++ '}' :: '}' :: substVars ctx rest2) := by
  rw [substVars]
  split
  · rename_i r2 heq2
    have hr2 : r2 = rest2 := by
      rw [heq] at heq2
      simpa using heq2.symm
    rw [if_neg hwe, hlk, hr2]
  · rename_i hno
    exact absurd heq (hno rest2)

theorem substVars_found_some (ctx : List (String × String))
    (rest rest2 : List Char)
    (heq : (takeWord rest).2 = '}' :: '}' :: rest2)
    (hwe : ¬ (takeWord rest).1.isEmpty = true) (v : String)
    (hlk : alookup ctx (String.mk (takeWord rest).1) = some v) :
    substVars ctx ('{' :: '{' :: rest) = v.toList ++ substVars ctx rest2 := by
  rw [substVars]
  split
  · rename_i r2 heq2
    have hr2 : r2 = rest2 := by
      rw [heq] at heq2
      simpa using heq2.symm
    rw [if_neg hwe, hlk, hr2]
  · rename_i hno
    exact absurd heq (hno rest2)

theorem substVars_nomatch (ctx : List (String × String)) (rest : List Char)
    (hno : ∀ r2 : List Char, (takeWord rest).2 = '}' :: '}' :: r2 → False) :
    substVars ctx ('{' :: '{' :: rest) = '{' :: substVars ctx ('{' :: rest) := by
  rw [substVars]
  split
  · rename_i r2 heq2
    exact absurd heq2 (hno r2)
  · rfl

theorem substVars_cons (ctx : List (String × String)) (c : Char)
    (rest : List Char)
    (hc : ∀ r : List Char, c = '{' → rest = '{' :: r → False) :
    substVars ctx (c :: rest) = c :: substVars ctx rest := by
  rw [substVars.eq_def]
  split
  · rename_i heq
    cases heq
  · rename_i r heq
    cases heq
    exact absurd rfl (fun h => hc r h rfl)
  · rename_i c2 rest2 hx heq
    cases heq
    rfl

theorem matchedVars_found_empty (rest rest2 : List Char)
    (heq : (takeWord rest).2 = '}' :: '}' :: rest2)
    (hwe : (takeWord rest).1.isEmpty = true) :
    matchedVars ('{' :: '{' :: rest) = matchedVars ('{' :: rest) := by
  rw [matchedVars]
  split
  · rw [if_pos hwe]
  · rename_i hno
    exact absurd heq (hno rest2)

theorem matchedVars_found_nonempty (rest rest2 : List Char)
    (heq : (takeWord rest).2 = '}' :: '}' :: rest2)
    (hwe : ¬ (takeWord rest).1.isEmpty = true) :
    matchedVars ('{' :: '{' :: rest) =
      String.mk (takeWord rest).1 :: matchedVars rest2 := by
  rw [matchedVars]
  split
  · rename_i r2 heq2
    have hr2 : r2 = rest2 := by
      rw [heq] at heq2
      simpa using heq2.symm
    rw [if_neg hwe, hr2]
  · rename_i hno
    exact absurd heq (hno rest2)

theorem matchedVars_nomatch (rest : List Char)
    (hno : ∀ r2 : List Char, (takeWord rest).2 = '}' :: '}' :: r2 → False) :
    matchedVars ('{' :: '{' :: rest) = matchedVars ('{' :: rest) := by
  rw [matchedVars]
  split
  · rename_i r2 heq2
    exact absurd heq2 (hno r2)
  · rfl

theorem matchedVars_cons (c : Char) (rest : List Char)
    (hc : ∀ r : List Char, c = '{' → rest = '{' :: r → False) :
    matchedVars (c :: rest) = matchedVars rest := by
  rw [matchedVars.eq_def]
  split
  · rename_i heq
    cases heq
  · rename_i r heq
    cases heq
    exact absurd rfl (fun h => hc r h rfl)
  · rename_i c2 rest2 hx heq
    cases heq
    rfl

/-- If every variable the pattern matches in `l` is absent from the
context, the regex substitution reproduces `l` verbatim: each unresolvable
`\x7b\x7bvar\x7d\x7d` occurrence is left in the string. -/
theorem substVars_id (ctx : List (String × String)) (l : List Char)
    (h : ∀ w ∈ matchedVars l, alookup ctx w = none) :
    substVars ctx l = l := by
  revert h
  induction l using substVars.induct ctx with
  | case1 =>
    intro h
    rw [substVars]
  | case2 rest w rest2 heq hwe ih =>
    intro h
    rw [substVars_found_empty ctx rest rest2 heq hwe, ih]
    rw [matchedVars_found_empty rest rest2 heq hwe] at h
    exact h
  | case3 rest w rest2 heq hwe v hv ih =>
    intro h
    have hmem : String.mk (takeWord rest).1 ∈ matchedVars ('{' :: '{' :: rest) := by
      rw [matchedVars_found_nonempty rest rest2 heq hwe]
      exact List.mem_cons_self _ _
    rw [h _ hmem] at hv
    cases hv
  | case4 rest w rest2 heq hwe hv ih =>
    intro h
    rw [matchedVars_found_nonempty rest rest2 heq hwe] at h
    rw [substVars_found_none ctx rest rest2 heq hwe
      (h _ (List.mem_cons_self _ _))]
    rw [ih (fun x hx => h x (List.mem_cons_of_mem _ hx))]
    have hrest : (takeWord rest).1 ++ (takeWord rest).2 = rest :=
      takeWord_append rest
    rw [heq] at hrest
    rw [hrest]
  | case5 rest hno ih =>
    intro h
    rw [substVars_nomatch ctx rest hno, ih]
    rw [matchedVars_nomatch rest hno] at h
    exact h
  | case6 c rest hc ih =>
    intro h
    rw [substVars_cons ctx c rest hc, ih]
    rw [matchedVars_cons c rest hc] at h
    exact h

theorem isInfix_cons {α : Type} (a : α) {i l : List α}
    (h : List.IsInfix i l) : List.IsInfix i (a :: l) := by
  obtain ⟨s, t, he⟩ := h
  exact ⟨a :: s, t, by simp [he]⟩

theorem isInfix_append_left {α : Type} (x : List α) {i l : List α}
    (h : List.IsInfix i l) : List.IsInfix i (x ++ l) := by
  obtain ⟨s, t, he⟩ := h
  exact ⟨x ++ s, t, by simp [← he]⟩

/-- Per-occurrence verbatim preservation: a matched variable that is absent
from the context keeps its `\x7b\x7bvar\x7d\x7d` text inside the
substitution's output, even when other variables do resolve. -/
theorem substVars_keeps_unresolved (ctx : List (String × String))
    (l : List Char) (v : String) (hv : alookup ctx v = none)
    (hmem : v ∈ matchedVars l) :
    List.IsInfix ('{' :: '{' :: (v.toList ++ ['}', '}']))
      (substVars ctx l) := by
  revert hmem
  induction l using substVars.induct ctx with
  | case1 =>
    intro hmem
    rw [matchedVars] at hmem
    cases hmem
  | case2 rest w rest2 heq hwe ih =>
    intro hmem
    rw [matchedVars_found_empty rest rest2 heq hwe] at hmem
    rw [substVars_found_empty ctx rest rest2 heq hwe]
    exact isInfix_cons _ (ih hmem)
  | case3 rest w rest2 heq hwe u hu ih =>
    intro hmem
    rw [matchedVars_found_nonempty rest rest2 heq hwe] at hmem
    rcases List.mem_cons.mp hmem with h | h
    · rw [h] at hv
      rw [hv] at hu
      cases hu
    · rw [substVars_found_some ctx rest rest2 heq hwe u hu]
      exact isInfix_append_left _ (ih h)
  | case4 rest w rest2 heq hwe hu ih =>
    intro hmem
    rw [matchedVars_found_nonempty rest rest2 heq hwe] at hmem
    rw [substVars_found_none ctx rest rest2 heq hwe hu]
    rcases List.mem_cons.mp hmem with h | h
    · refine ⟨[], substVars ctx rest2, ?_⟩
      rw [h]
      simp
    · obtain ⟨s, t, he⟩ := ih h
      refine ⟨'{' :: '{' :: ((takeWord rest).1 ++ '}' :: '}' :: s), t, ?_⟩
      simp [← he]
  | case5 rest hno ih =>
    intro hmem
    rw [matchedVars_nomatch rest hno] at hmem
    rw [substVars_nomatch ctx rest hno]
    exact isInfix_cons _ (ih hmem)
  | case6 c rest hc ih =>
    intro hmem
    rw [matchedVars_cons c rest hc] at hmem
    rw [substVars_cons ctx c rest hc]
    exact isInfix_cons _ (ih hmem)

/-- C10.  Template resolution is silently partial.  For a step parameter
whose value is exactly the string `\x7b\x7bvar\x7d\x7d` with `var` absent
from the context, the resolved value passed on to the tool handler is
Python `None`, and no error is raised (resolution is total).  A string that
merely embeds template references and does not resolve any of them (every
matched variable absent from the context) is passed through verbatim; and
in general an unresolvable `\x7b\x7bvar\x7d\x7d` occurrence embedded in a
longer string is left in the resolved string verbatim even when other
variables of the same string do resolve. -/
theorem claim_c10 :
    (∀ (ctx : List (String × String)) (key var : String),
      alookup ctx var = none →
      resolveParams ctx [(key, .str ("\x7b\x7b" ++ var ++ "\x7d\x7d"))] =
        [(key, .vnone)]) ∧
    (∀ (ctx : List (String × String)) (key : String) (s : String),
      (strStartsWith s "\x7b\x7b" && strEndsWith s "\x7d\x7d") = false →
      (strContains s "\x7b\x7b" && strContains s "\x7d\x7d") = true →
      (∀ w ∈ matchedVars s.toList, alookup ctx w = none) →
      resolveParams ctx [(key, .str s)] = [(key, .str s)]) ∧
    (∀ (ctx : List (String × String)) (key : String) (s v : String),
      (strStartsWith s "\x7b\x7b" && strEndsWith s "\x7d\x7d") = false →
      (strContains s "\x7b\x7b" && strContains s "\x7d\x7d") = true →
      alookup ctx v = none → v ∈ matchedVars s.toList →
      resolveParams ctx [(key, .str s)] =
        [(key, .str (String.mk (substVars ctx s.toList)))] ∧
      List.IsInfix ("\x7b\x7b" ++ v ++ "\x7d\x7d").toList
        (substVars ctx s.toList)) := by
  refine ⟨?_, ?_, ?_⟩
  · intro ctx key var h
    simp [resolveParams, resolveValue, startsWith_wrap, endsWith_wrap,
      directResolve, slice_wrap, h]
  · intro ctx key s hdirect hembed habs
    have hid : substVars ctx s.data = s.data := substVars_id ctx s.toList habs
    simp [resolveParams, resolveValue, hdirect, hembed, hid]
  · intro ctx key s v hdirect hembed hv hmem
    constructor
    · simp [resolveParams, resolveValue, hdirect, hembed]
    · rw [toList_wrap]
      exact substVars_keeps_unresolved ctx s.toList v hv hmem

/-- Witness for C10: `\x7b\x7bdest\x7d\x7d` with `dest` unbound resolves to
`None`; "go to \x7b\x7bcity\x7d\x7d now" with `city` unbound is passed
through verbatim; and in "x\x7b\x7ba\x7d\x7d\x7b\x7bb\x7d\x7d" with `a`
bound and `b` unbound, the `\x7b\x7bb\x7d\x7d` occurrence survives in the
output. -/
theorem claim_c10_witness :
    resolveParams [("other", "x")] [("p", .str "\x7b\x7bdest\x7d\x7d")] =
      [("p", .vnone)] ∧
    resolveParams [] [("q", .str "go to \x7b\x7bcity\x7d\x7d now")] =
      [("q", .str "go to \x7b\x7bcity\x7d\x7d now")] ∧
    List.IsInfix ("\x7b\x7bb\x7d\x7d").toList
      (substVars [("a", "1")] ("x\x7b\x7ba\x7d\x7d\x7b\x7bb\x7d\x7d").toList) :=
  ⟨claim_c10.1 [("other", "x")] "p" "dest" rfl,
   claim_c10.2.1 [] "q" "go to \x7b\x7bcity\x7d\x7d now"
    (by decide) (by decide) (fun w _ => rfl),
   (claim_c10.2.2 [("a", "1")] "r" "x\x7b\x7ba\x7d\x7d\x7b\x7bb\x7d\x7d" "b"
    (by decide) (by decide) rfl
    (by
      show ("b" : String) ∈ matchedVars
        ('x' :: '{' :: '{' :: 'a' :: '}' :: '}' ::
          '{' :: '{' :: 'b' :: '}' :: '}' :: [])
      rw [matchedVars_cons 'x' _ (fun r h1 _ => absurd h1 (by decide)),
        matchedVars_found_nonempty
          ('a' :: '}' :: '}' :: '{' :: '{' :: 'b' :: '}' :: '}' :: [])
          ('{' :: '{' :: 'b' :: '}' :: '}' :: []) rfl (by decide),
        matchedVars_found_nonempty ('b' :: '}' :: '}' :: []) [] rfl (by decide)]
      rw [matchedVars]
      decide)).2⟩

/-! ## Claim C3 — wave execution and the retry engine -/

/-- A clean batch marks exactly the batch's steps completed, in order. -/
theorem processBatch_inl (lst : List (ExecutionStep × ToolOut)) (ctx : Ctx)
    (completed : List String) (ctx' : Ctx) (completed' : List String)
    (h : processBatch lst ctx completed = .inl (ctx', completed')) :
    completed' = completed ++ lst.map (fun p => p.1.id) := by
  induction lst generalizing ctx completed with
  | nil =>
    rw [processBatch] at h
    injection h with h1
    injection h1 with h1 h2
    simp [← h2]
  | cons p rest ih =>
    obtain ⟨s, out⟩ := p
    cases out with
    | ok u =>
      rw [processBatch] at h
      have := ih _ _ h
      simpa using this
    | err m =>
      rw [processBatch] at h
      cases h
    | interrupt r d =>
      rw [processBatch] at h
      cases h

/-- A failed batch reports a member of the batch. -/
theorem processBatch_inr (lst : List (ExecutionStep × ToolOut)) (ctx : Ctx)
    (completed : List String) (s : ExecutionStep) (e : String)
    (h : processBatch lst ctx completed = .inr (s, e)) :
    s ∈ lst.map (fun p => p.1) := by
  induction lst generalizing ctx completed with
  | nil =>
    rw [processBatch] at h
    cases h
  | cons p rest ih =>
    obtain ⟨s0, out⟩ := p
    cases out with
    | ok u =>
      rw [processBatch] at h
      exact List.mem_cons_of_mem _ (ih _ _ h)
    | err m =>
      rw [processBatch] at h
      injection h with h1
      injection h1 with h1 h2
      simp [h1]
    | interrupt r d =>
      rw [processBatch] at h
      injection h with h1
      injection h1 with h1 h2
      simp [h1]

/-- Membership in a ready wave unpacks the three ready conditions. -/
theorem mem_ready (plan : List ExecutionStep) (completed : List String)
    (s : ExecutionStep) (h : s ∈ plan.filter (isReady completed)) :
    s ∈ plan ∧ s.id ∉ completed ∧
      ∀ d ∈ s.dependencies, d ∈ completed := by
  rw [List.mem_filter] at h
  obtain ⟨hmem, hready⟩ := h
  simp only [isReady, Bool.and_eq_true, decide_eq_true_eq,
    List.all_eq_true] at hready
  exact ⟨hmem, hready.1.1, fun d hd => by
    have := hready.2 d hd
    simpa using this⟩

/-- The ids of a wave are distinct and fresh when the plan's ids are
distinct: a wave is a sublist of the plan. -/
theorem ready_ids_nodup (plan : List ExecutionStep) (completed : List String)
    (hnd : (planIds plan).Nodup) :
    ((plan.filter (isReady completed)).map (fun s => s.id)).Nodup := by
  have hsub : List.Sublist
      ((plan.filter (isReady completed)).map (fun s => s.id))
      (plan.map (fun s => s.id)) :=
    List.Sublist.map _ (List.filter_sublist plan)
  exact List.Nodup.sublist hsub hnd

/-- Scheduler-loop instrumentation invariant: with distinct plan ids the
invocation trace stays duplicate-free, and a batch failure names a wave
member while the whole wave appears in the trace (every member of the
failing batch was executed). -/
theorem executePlanLoop_spec (tool : String → Nat → ToolOut)
    (plan : List ExecutionStep) (hnd : (planIds plan).Nodup) :
    ∀ (fuel : Nat) (ctx : Ctx) (completed trace : List String),
      trace.Nodup → (∀ x ∈ trace, x ∈ completed) →
      ((executePlanLoop tool plan ctx completed trace fuel).2.Nodup ∧
       (∀ (sid : String) (idx : Nat) (err : String) (wave : List String),
         (executePlanLoop tool plan ctx completed trace fuel).1 =
           .batchFailure sid idx err wave →
         sid ∈ wave ∧
           wave ⊆ (executePlanLoop tool plan ctx completed trace fuel).2)) := by
  intro fuel
  induction fuel with
  | zero =>
    intro ctx completed trace htr hsub
    rw [executePlanLoop]
    exact ⟨htr, fun sid idx err wave h => by cases h⟩
  | succ f ih =>
    intro ctx completed trace htr hsub
    rw [executePlanLoop]
    by_cases hlen : completed.length < plan.length
    · rw [if_pos hlen]
      by_cases hready : (plan.filter (isReady completed)).isEmpty
      · rw [if_pos hready]
        by_cases hpend :
            (plan.filter (fun s => decide (s.id ∉ completed))).isEmpty
        · rw [if_pos hpend]
          exact ⟨htr, fun sid idx err wave h => by cases h⟩
        · rw [if_neg hpend]
          exact ⟨htr, fun sid idx err wave h => by cases h⟩
      · rw [if_neg hready]
        have htr1 : (trace ++
            (plan.filter (isReady completed)).map (fun s => s.id)).Nodup := by
          refine List.Nodup.append htr (ready_ids_nodup plan completed hnd) ?_
          intro x hx hx2
          obtain ⟨s, hs, hsid⟩ := List.mem_map.mp hx2
          obtain ⟨_, hnotc, _⟩ := mem_ready plan completed s hs
          subst hsid
          exact hnotc (hsub _ hx)
        rcases hpb : processBatch
            ((plan.filter (isReady completed)).map
              (fun s => (s, execStepOut s (tool s.id 0)))) ctx completed with
          pr | pr
        · obtain ⟨ctx1, completed1⟩ := pr
          simp only [hpb]
          have hcomp1 := processBatch_inl _ _ _ _ _ hpb
          simp only [List.map_map] at hcomp1
          have hsub1 : ∀ x ∈ trace ++
              (plan.filter (isReady completed)).map (fun s => s.id),
              x ∈ completed1 := by
            intro x hx
            rw [hcomp1]
            rcases List.mem_append.mp hx with h | h
            · exact List.mem_append.mpr (Or.inl (hsub _ h))
            · refine List.mem_append.mpr (Or.inr ?_)
              simpa using h
          exact ih ctx1 completed1 _ htr1 hsub1
        · obtain ⟨s, err⟩ := pr
          simp only [hpb]
          have hsmem := processBatch_inr _ _ _ _ _ hpb
          simp only [List.map_map] at hsmem
          constructor
          · exact htr1
          · intro sid idx err2 wave h
            injection h with h1 h2 h3 h4
            subst h1
            subst h4
            constructor
            · have hsr : s ∈ plan.filter (isReady completed) := by
                simpa using hsmem
              exact List.mem_map.mpr ⟨s, hsr, rfl⟩
            · intro x hx
              exact List.mem_append.mpr (Or.inr hx)
    · rw [if_neg hlen]
      exact ⟨htr, fun sid idx err wave h => by cases h⟩

/-- The flaky step of the C3 scenario. -/
def c3step : ExecutionStep := { id := "s1", action_type := "search" }

/-- A tool that fails on a step's first invocation and succeeds on any
retry. -/
def c3tool : String → Nat → ToolOut :=
  fun _ a => if a = 0 then .err "flaky" else .ok []

/-- Counterexample to C3 as stated.  A single-step plan whose tool fails
once and then succeeds: wrapped by the Retry Engine the step succeeds on
attempt 2, but `ExecutorEngine.execute_plan` executes the ready wave with
the plain step executor — no retry wrapping — so the step is invoked exactly
once and the plan fails. -/
theorem claim_c3_counterexample :
    (executeWithRetry c3step (c3tool "s1") [] (fun _ _ => 1) {} 0).1 =
      .success 2 ∧
    (executePlan c3tool [c3step] []).1 =
      .batchFailure "s1" 0 "Step s1 failed: flaky" ["s1"] ∧
    (executePlan c3tool [c3step] []).2 = ["s1"] :=
  ⟨rfl, rfl, rfl⟩

/-- C3 as amended.  During plan execution by the DAG scheduler, every ready
step of a wave is dispatched in the same batch and executed by the plain
step executor — exactly once across the whole run (the invocation trace has
no duplicates: the scheduler itself never retries), not wrapped by the
Retry Engine — and the scheduler waits for the entire batch even when one
member fails: a batch-failure report names a member of the wave and every
member of that wave appears in the invocation trace. -/
theorem claim_c3_amended (tool : String → Nat → ToolOut)
    (plan : List ExecutionStep) (ctx : Ctx)
    (hnd : (planIds plan).Nodup) :
    (executePlan tool plan ctx).2.Nodup ∧
    (∀ (sid : String) (idx : Nat) (err : String) (wave : List String),
      (executePlan tool plan ctx).1 = .batchFailure sid idx err wave →
      sid ∈ wave ∧ wave ⊆ (executePlan tool plan ctx).2) :=
  executePlanLoop_spec tool plan hnd (plan.length + 1) ctx [] []
    List.nodup_nil (fun x hx => by cases hx)

/-- Witness for the amended C3 on the concrete flaky single-step plan. -/
theorem claim_c3_amended_witness :
    (executePlan c3tool [c3step] []).2.Nodup ∧
    ("s1" ∈ ["s1"] ∧
      (["s1"] : List String) ⊆ (executePlan c3tool [c3step] []).2) :=
  ⟨(claim_c3_amended c3tool [c3step] [] (by decide)).1,
   (claim_c3_amended c3tool [c3step] [] (by decide)).2
     "s1" 0 "Step s1 failed: flaky" ["s1"] rfl⟩

/-! ## Claim C5 — deadlock rejection and its report -/

/-- A non-empty set of step ids none of which can ever become ready: each of
its steps has a dependency that is dangling (absent from the plan) or lies
in the set itself.  A dependency cycle yields such a set (its members); a
step with a dangling dependency yields the singleton set. -/
def StuckSet (plan : List ExecutionStep) (S : List String) : Prop :=
  S ≠ [] ∧ (∀ x ∈ S, x ∈ planIds plan) ∧
  (∀ s ∈ plan, s.id ∈ S → ∃ d ∈ s.dependencies, d ∉ planIds plan ∨ d ∈ S)

theorem completed_lt (plan : List ExecutionStep) (S completed : List String)
    (hnd : (planIds plan).Nodup) (hcn : completed.Nodup)
    (hcs : ∀ x ∈ completed, x ∈ planIds plan)
    (hdisj : ∀ x ∈ S, x ∉ completed) (hS : StuckSet plan S) :
    completed.length < plan.length := by
  obtain ⟨hne, hSin, _⟩ := hS
  obtain ⟨x, hx⟩ := List.exists_mem_of_ne_nil S hne
  have hsubp : List.Subperm (x :: completed) (planIds plan) := by
    refine List.Nodup.subperm ?_ ?_
    · exact List.nodup_cons.mpr ⟨hdisj x hx, hcn⟩
    · intro y hy
      rcases List.mem_cons.mp hy with h | h
      · rw [h]
        exact hSin x hx
      · exact hcs y h
  have hle := List.Subperm.length_le hsubp
  have hlen : (planIds plan).length = plan.length := List.length_map plan _
  simp [hlen] at hle
  omega

theorem ready_not_stuck (plan : List ExecutionStep) (S completed : List String)
    (hS : StuckSet plan S) (hcs : ∀ x ∈ completed, x ∈ planIds plan)
    (hdisj : ∀ x ∈ S, x ∉ completed) :
    ∀ s ∈ plan.filter (isReady completed), s.id ∉ S := by
  intro s hs hmem
  obtain ⟨hsp, _, hdeps⟩ := mem_ready plan completed s hs
  obtain ⟨d, hd, hbad⟩ := hS.2.2 s hsp hmem
  have hdc : d ∈ completed := hdeps d hd
  rcases hbad with h | h
  · exact h (hcs d hdc)
  · exact hdisj d h hdc

/-- When every batch member succeeded, the batch is clean and marks all its
steps completed. -/
theorem processBatch_allOk (lst : List (ExecutionStep × ToolOut)) (ctx : Ctx)
    (completed : List String)
    (h : ∀ p ∈ lst, ∃ u, p.2 = ToolOut.ok u) :
    ∃ ctx', processBatch lst ctx completed =
      .inl (ctx', completed ++ lst.map (fun p => p.1.id)) := by
  induction lst generalizing ctx completed with
  | nil => exact ⟨ctx, by simp [processBatch]⟩
  | cons p rest ih =>
    obtain ⟨s, out⟩ := p
    obtain ⟨u, hu⟩ := h (s, out) (List.mem_cons_self _ _)
    simp only at hu
    subst hu
    rw [processBatch]
    obtain ⟨ctx', hc⟩ :=
      ih (aupdate ctx u) (completed ++ [s.id])
        (fun q hq => h q (List.mem_cons_of_mem _ hq))
    exact ⟨ctx', by rw [hc]; simp⟩

/-- With an always-succeeding tool and a stuck set, the scheduler's loop
always ends in the deadlock report pairing every still-pending step id with
its full declared dependency list, and no stuck step ever completes. -/
theorem executePlanLoop_deadlock (tool : String → Nat → ToolOut)
    (plan : List ExecutionStep) (S : List String)
    (hnd : (planIds plan).Nodup)
    (hok : ∀ (sid : String) (a : Nat), ∃ u, tool sid a = .ok u)
    (hS : StuckSet plan S) :
    ∀ (fuel : Nat) (ctx : Ctx) (completed trace : List String),
      completed.Nodup → (∀ x ∈ completed, x ∈ planIds plan) →
      (∀ x ∈ S, x ∉ completed) →
      plan.length - completed.length < fuel →
      ∃ (completed' trace' : List String),
        executePlanLoop tool plan ctx completed trace fuel =
          (.deadlock ((plan.filter (fun s => decide (s.id ∉ completed'))).map
            (fun s => (s.id, s.dependencies))), trace') ∧
        (∀ x ∈ S, x ∉ completed') := by
  intro fuel
  induction fuel with
  | zero =>
    intro ctx completed trace _ _ _ hf
    omega
  | succ f ih =>
    intro ctx completed trace hcn hcs hdisj hf
    have hlen := completed_lt plan S completed hnd hcn hcs hdisj hS
    rw [executePlanLoop, if_pos hlen]
    by_cases hready : (plan.filter (isReady completed)).isEmpty
    · rw [if_pos hready]
      have hpend :
          ¬ (plan.filter (fun s => decide (s.id ∉ completed))).isEmpty = true := by
        obtain ⟨x, hx⟩ := List.exists_mem_of_ne_nil S hS.1
        obtain ⟨s, hs, hsid⟩ := List.mem_map.mp (hS.2.1 x hx)
        have hsp : s ∈ plan.filter (fun s => decide (s.id ∉ completed)) := by
          rw [List.mem_filter]
          refine ⟨hs, ?_⟩
          rw [hsid]
          simpa using hdisj x hx
        intro he
        rw [List.isEmpty_iff] at he
        rw [he] at hsp
        cases hsp
      rw [if_neg hpend]
      exact ⟨completed, trace, rfl, hdisj⟩
    · rw [if_neg hready]
      have hall : ∀ p ∈ (plan.filter (isReady completed)).map
          (fun s => (s, execStepOut s (tool s.id 0))),
          ∃ u, p.2 = ToolOut.ok u := by
        intro p hp
        obtain ⟨s, hs, hpe⟩ := List.mem_map.mp hp
        obtain ⟨u, hu⟩ := hok s.id 0
        refine ⟨u, ?_⟩
        rw [← hpe]
        simp only
        rw [hu]
        rfl
      obtain ⟨ctx1, hc⟩ := processBatch_allOk _ ctx completed hall
      simp only [hc]
      have hridn := ready_ids_nodup plan completed hnd
      have hfresh : ∀ x ∈ (plan.filter (isReady completed)).map
          (fun s => s.id), x ∉ completed := by
        intro x hx
        obtain ⟨s, hs, hsid⟩ := List.mem_map.mp hx
        obtain ⟨_, hnotc, _⟩ := mem_ready plan completed s hs
        rw [← hsid]
        exact hnotc
      have hrpos : 0 < ((plan.filter (isReady completed)).map
          (fun s => s.id)).length := by
        rw [List.length_map]
        rcases hcase : plan.filter (isReady completed) with _ | ⟨a, l⟩
        · rw [hcase] at hready
          simp at hready
        · simp
      have hmm : ((plan.filter (isReady completed)).map
            (fun s => (s, execStepOut s (tool s.id 0)))).map
            (fun p => p.1.id) =
          (plan.filter (isReady completed)).map (fun s => s.id) := by
        rw [List.map_map]
        rfl
      rw [hmm]
      refine ih ctx1 (completed ++
          (plan.filter (isReady completed)).map (fun s => s.id)) _ ?_ ?_ ?_ ?_
      · refine List.Nodup.append hcn hridn ?_
        intro x hx hx2
        exact hfresh x hx2 hx
      · intro x hx
        rcases List.mem_append.mp hx with h | h
        · exact hcs x h
        · obtain ⟨s, hs, hsid⟩ := List.mem_map.mp h
          rw [← hsid]
          exact List.mem_map.mpr ⟨s, (List.mem_filter.mp hs).1, rfl⟩
      · intro x hx
        rw [List.mem_append]
        push_neg
        refine ⟨hdisj x hx, ?_⟩
        intro hmem
        obtain ⟨s, hs, hsid⟩ := List.mem_map.mp hmem
        exact ready_not_stuck plan S completed hS hcs hdisj s hs (by rw [hsid]; exact hx)
      · rw [List.length_append]
        omega

/-- The three steps of the C5 counterexample: A has no dependencies, B
depends on A and C, C depends on B (a B-C cycle behind a completed A). -/
def c5stepA : ExecutionStep := { id := "A", action_type := "t" }

def c5stepB : ExecutionStep :=
  { id := "B", action_type := "t", dependencies := ["A", "C"] }

def c5stepC : ExecutionStep :=
  { id := "C", action_type := "t", dependencies := ["B"] }

/-- The cyclic plan of the C5 counterexample. -/
def c5plan : List ExecutionStep := [c5stepA, c5stepB, c5stepC]

/-- A tool that always succeeds with no context updates. -/
def allOkTool : String → Nat → ToolOut := fun _ _ => .ok []

/-- Counterexample to C5 as stated.  On the cyclic plan, execution is
rejected with a deadlock after step A completes (trace `["A"]`), but the
report lists B with its FULL declared dependency list `["A", "C"]` — the
met dependency A included — not with its unmet dependency ids `["C"]` as
the claim states: the code interpolates `s.dependencies`, not the unmet
subset. -/
theorem claim_c5_counterexample :
    (executePlan allOkTool c5plan []).1 =
      .deadlock [("B", ["A", "C"]), ("C", ["B"])] ∧
    (executePlan allOkTool c5plan []).2 = ["A"] ∧
    specDeadlockInfo c5plan ["A"] = [("B", ["C"]), ("C", ["B"])] ∧
    [("B", ["A", "C"]), ("C", ["B"])] ≠ [("B", ["C"]), ("C", ["B"])] :=
  ⟨rfl, rfl, rfl, by decide⟩

/-- C5 as amended.  For every plan whose steps contain a stuck set — which
covers both a dependency cycle and a step referencing a dependency id
absent from the plan — execution (with every attempted step succeeding) is
rejected with a Deadlock error that lists every still-pending step id
together with that step's FULL declared dependency list (a superset of the
unmet dependency ids); the stuck steps are always among the pending ones. -/
theorem claim_c5_amended (tool : String → Nat → ToolOut)
    (plan : List ExecutionStep) (ctx : Ctx) (S : List String)
    (hnd : (planIds plan).Nodup)
    (hok : ∀ (sid : String) (a : Nat), ∃ u, tool sid a = .ok u)
    (hS : StuckSet plan S) :
    ∃ (completed' trace' : List String),
      executePlan tool plan ctx =
        (.deadlock ((plan.filter (fun s => decide (s.id ∉ completed'))).map
          (fun s => (s.id, s.dependencies))), trace') ∧
      (∀ x ∈ S, x ∉ completed') :=
  executePlanLoop_deadlock tool plan S hnd hok hS (plan.length + 1) ctx [] []
    List.nodup_nil (fun x hx => by cases hx) (fun x _ => by simp)
    (by omega)

/-- Witness for the amended C5 on the concrete cyclic plan with the
always-succeeding tool and stuck set `\x7bB, C\x7d`. -/
theorem claim_c5_amended_witness :
    ∃ (completed' trace' : List String),
      executePlan allOkTool c5plan [] =
        (.deadlock ((c5plan.filter (fun s => decide (s.id ∉ completed'))).map
          (fun s => (s.id, s.dependencies))), trace') ∧
      (∀ x ∈ ["B", "C"], x ∉ completed') :=
  claim_c5_amended allOkTool c5plan [] ["B", "C"] (by decide)
    (fun _ _ => ⟨[], rfl⟩) (by unfold StuckSet; decide)

end AgentCore
